import Mathlib

/-!
Shallow embedding of the GGUF container decoder (gguf-parser-go) and proofs
about its documented behaviour.

The embedding follows `file.go` (the binary decoder, the metadata value
union and its accessors, the tensor size calculator, the layer hierarchy
builder) and the file-type inferencer of the model metadata source file.

Conventions:
* Machine integers are embedded as `Nat` (unsigned) or `Int` (signed via
  two's complement decoding).  Where the Go code can overflow `uint64`
  (products and running sums of tensor sizes) the arithmetic is performed
  modulo `2 ^ 64` (`add64`, `mul64`, `sub1u64`).
* The seekable byte source is a list of bytes plus a cursor.  `binary.Read`
  and friends perform full reads and fail on short data; `Seek` relative to
  the current position always succeeds (an `io.SectionReader` allows seeking
  past the end — subsequent reads then fail).
* Go runtime panics (failed type assertions, out-of-range indexing,
  `panic(...)` calls, division by zero) are modelled as distinguished error
  values (`GGUFErr.contractViolation`, `GGUFErr.divideByZero`) or as `none`
  for functions that cannot otherwise fail.
-/

namespace GGUF

/-- `2 ^ 64`, the modulus of Go's `uint64` arithmetic. -/
def M64 : Nat := 18446744073709551616

/-- `uint64` addition (wraps modulo `2 ^ 64`). -/
def add64 (a b : Nat) : Nat := (a + b) % M64

/-- `uint64` multiplication (wraps modulo `2 ^ 64`). -/
def mul64 (a b : Nat) : Nat := (a * b) % M64

/-- `uint64` decrement `a - 1`: wraps to `2 ^ 64 - 1` when `a = 0`. -/
def sub1u64 (a : Nat) : Nat := (a + (M64 - 1)) % M64

/-- `uint64` image of a (possibly negative) `int64`-style value. -/
def u64ofInt (x : Int) : Nat := (x % ((2 : Int) ^ 64)).toNat

/- GGUFMagic constants (`file.go`). -/

def ggufMagicGGML : Nat := 0x67676d6c
def ggufMagicGGMF : Nat := 0x67676d66
def ggufMagicGGJT : Nat := 0x67676a74
def ggufMagicGGUFLe : Nat := 0x46554747
def ggufMagicGGUFBe : Nat := 0x47475546

/- GGUFMetadataValueType constants (`file.go`, iota starting at 0). -/

def mvtUint8 : Nat := 0
def mvtInt8 : Nat := 1
def mvtUint16 : Nat := 2
def mvtInt16 : Nat := 3
def mvtUint32 : Nat := 4
def mvtInt32 : Nat := 5
def mvtFloat32 : Nat := 6
def mvtBool : Nat := 7
def mvtString : Nat := 8
def mvtArray : Nat := 9
def mvtUint64 : Nat := 10
def mvtInt64 : Nat := 11
def mvtFloat64 : Nat := 12
/-- `_GGUFMetadataValueTypeCount`: first unrecognized value-type tag. -/
def mvtCount : Nat := 13

/- GGUFFileType constants (model metadata source file, iota starting at 0). -/

def ggufFileTypeAllF32 : Nat := 0
def ggufFileTypeMostlyF16 : Nat := 1
def ggufFileTypeMostlyQ4_0 : Nat := 2
def ggufFileTypeMostlyQ4_1 : Nat := 3
def ggufFileTypeMostlyQ4_1_F16 : Nat := 4
def ggufFileTypeMostlyQ4_2 : Nat := 5
def ggufFileTypeMostlyQ4_3 : Nat := 6
def ggufFileTypeMostlyQ8_0 : Nat := 7
def ggufFileTypeMostlyQ5_0 : Nat := 8
def ggufFileTypeMostlyQ5_1 : Nat := 9
def ggufFileTypeMostlyQ2_K : Nat := 10
def ggufFileTypeMostlyQ3_K : Nat := 11
def ggufFileTypeMostlyQ4_K : Nat := 12
def ggufFileTypeMostlyQ5_K : Nat := 13
def ggufFileTypeMostlyQ6_K : Nat := 14
def ggufFileTypeMostlyIQ2_XXS : Nat := 15
def ggufFileTypeMostlyIQ2_XS : Nat := 16
def ggufFileTypeMostlyIQ3_XXS : Nat := 17
def ggufFileTypeMostlyIQ1_S : Nat := 18
def ggufFileTypeMostlyIQ4_NL : Nat := 19
def ggufFileTypeMostlyIQ3_S : Nat := 20
def ggufFileTypeMostlyIQ2_S : Nat := 21
def ggufFileTypeMostlyIQ4_XS : Nat := 22
def ggufFileTypeMostlyIQ1_M : Nat := 23
def ggufFileTypeMostlyBF16 : Nat := 24
/-- `_GGUFFileTypeCount`, the "unknown" sentinel of the file-type enum. -/
def ggufFileTypeCountSentinel : Nat := 25

/-- Modelled from the spec: the `GGMLType` element-type enumeration lives in
the repository's `ggml.go`, which is not under `src/` (only `file.go`
references it).  The numeric tags follow the reference ggml enumeration the
spec's glossary points at; the claims below depend only on the distinctness
of these tags, not on their numeric values. -/
def ggmlTypeF32 : Nat := 0
def ggmlTypeF16 : Nat := 1
def ggmlTypeQ4_0 : Nat := 2
def ggmlTypeQ4_1 : Nat := 3
def ggmlTypeQ4_2 : Nat := 4
def ggmlTypeQ4_3 : Nat := 5
def ggmlTypeQ5_0 : Nat := 6
def ggmlTypeQ5_1 : Nat := 7
def ggmlTypeQ8_0 : Nat := 8
def ggmlTypeQ8_1 : Nat := 9
def ggmlTypeQ2_K : Nat := 10
def ggmlTypeQ3_K : Nat := 11
def ggmlTypeQ4_K : Nat := 12
def ggmlTypeQ5_K : Nat := 13
def ggmlTypeQ6_K : Nat := 14
def ggmlTypeQ8_K : Nat := 15
def ggmlTypeIQ2_XXS : Nat := 16
def ggmlTypeIQ2_XS : Nat := 17
def ggmlTypeIQ3_XXS : Nat := 18
def ggmlTypeIQ1_S : Nat := 19
def ggmlTypeIQ4_NL : Nat := 20
def ggmlTypeIQ3_S : Nat := 21
def ggmlTypeIQ2_S : Nat := 22
def ggmlTypeIQ4_XS : Nat := 23
def ggmlTypeIQ1_M : Nat := 29
def ggmlTypeBF16 : Nat := 30

/-- Modelled from the spec: `_GGMLTypeCount`, the first out-of-range tensor
element-type tag, from the missing `ggml.go` (the tensor-info decoder in
`file.go` rejects tags `≥ _GGMLTypeCount`). -/
def ggmlTypeCountSentinel : Nat := 31

/-- Modelled from the spec: the per element-type block-quantization trait
(`GGMLTypeTrait` of the missing `ggml.go`): fixed byte size of one storage
block and number of elements per block; block size `≥ 1`, and block size `= 1`
means the type is dense. -/
structure GGMLTypeTrait where
  blockSize : Nat
  typeSize : Nat
deriving Repr, DecidableEq

/-- Modelled from the spec: the trait lookup `GGMLType.Trait` of the missing
`ggml.go`, returning the trait and whether the type has one.  The spec fixes
the shape of the table (dense types have block size 1; the end-to-end
scenario uses a dense 4-byte f32-like type); the block-quantized entries
carry the reference ecosystem's constants.  Types outside the table have no
trait, which makes the size calculator fail. -/
def ggmlTrait : Nat → Option GGMLTypeTrait
  | 0 => some ⟨1, 4⟩       -- F32
  | 1 => some ⟨1, 2⟩       -- F16
  | 30 => some ⟨1, 2⟩      -- BF16
  | 2 => some ⟨32, 18⟩     -- Q4_0
  | 3 => some ⟨32, 20⟩     -- Q4_1
  | 6 => some ⟨32, 22⟩     -- Q5_0
  | 7 => some ⟨32, 24⟩     -- Q5_1
  | 8 => some ⟨32, 34⟩     -- Q8_0
  | 10 => some ⟨256, 82⟩   -- Q2_K
  | 11 => some ⟨256, 110⟩  -- Q3_K
  | 12 => some ⟨256, 144⟩  -- Q4_K
  | 13 => some ⟨256, 176⟩  -- Q5_K
  | 14 => some ⟨256, 210⟩  -- Q6_K
  | _ => none

/-- Decode errors of the embedded decoder.  Go runtime panics are modelled by
`contractViolation` and `divideByZero`; `outOfFuel` is an artifact of the
fuelled recursion of the metadata value decoder (the Go recursion has no
fuel; every theorem quantifies over or instantiates the fuel). -/
inductive GGUFErr where
  | invalidFormat
  | unsupportedFormat (magic : Nat)
  | ioShortRead (field : String)
  | invalidValueType (t : Nat)
  | invalidTensorType (t : Nat)
  | contractViolation (msg : String)
  | divideByZero
  | outOfFuel
deriving Repr, DecidableEq

/-- Byte order chosen from the magic tag. -/
inductive ByteOrder where
  | le
  | be
deriving Repr, DecidableEq

/-- Recognized decode options (`_GGUFReadOptions`); only `SkipLargeMetadata`
affects the core decode path embedded here. -/
structure GGUFReadOptions where
  skipLargeMetadata : Bool
deriving Repr, DecidableEq

/-- The seekable byte source: immutable data plus the stream cursor. -/
structure RS where
  data : List Nat
  pos : Nat
deriving Repr, DecidableEq

/-- Full read of `n` bytes (as `binary.Read`/`io.ReadFull`): fails on short
data, otherwise advances the cursor. -/
def RS.readBytes (s : RS) (n : Nat) (field : String) :
    Except GGUFErr (List Nat × RS) :=
  if s.pos + n ≤ s.data.length then
    .ok ((s.data.drop s.pos).take n, ⟨s.data, s.pos + n⟩)
  else .error (.ioShortRead field)

/-- Relative seek from the current position (always succeeds over a section
reader, even past the end of the data). -/
def RS.seekCur (s : RS) (n : Nat) : RS := ⟨s.data, s.pos + n⟩

/-- Little-endian value of a byte list. -/
def leVal (bs : List Nat) : Nat := bs.foldr (fun b acc => b + 256 * acc) 0

/-- Big-endian value of a byte list. -/
def beVal (bs : List Nat) : Nat := bs.foldl (fun acc b => 256 * acc + b) 0

/-- Fixed-width value under the chosen byte order. -/
def boVal (bo : ByteOrder) (bs : List Nat) : Nat :=
  match bo with
  | .le => leVal bs
  | .be => beVal bs

/-- Two's-complement reading of a `w`-bit unsigned value as a signed one. -/
def toSigned (w : Nat) (u : Nat) : Int :=
  if u < 2 ^ (w - 1) then (u : Int) else (u : Int) - 2 ^ w

/-- `_GGUFReader.ReadUint8`. -/
def readU8 (s : RS) (field : String) : Except GGUFErr (Nat × RS) :=
  match s.readBytes 1 field with
  | .error e => .error e
  | .ok (bs, s') => .ok (leVal bs, s')

/-- `_GGUFReader.ReadUint16` (byte order dependent). -/
def readU16 (bo : ByteOrder) (s : RS) (field : String) :
    Except GGUFErr (Nat × RS) :=
  match s.readBytes 2 field with
  | .error e => .error e
  | .ok (bs, s') => .ok (boVal bo bs, s')

/-- `_GGUFReader.ReadUint32` (byte order dependent). -/
def readU32 (bo : ByteOrder) (s : RS) (field : String) :
    Except GGUFErr (Nat × RS) :=
  match s.readBytes 4 field with
  | .error e => .error e
  | .ok (bs, s') => .ok (boVal bo bs, s')

/-- `_GGUFReader.ReadUint64` (byte order dependent). -/
def readU64 (bo : ByteOrder) (s : RS) (field : String) :
    Except GGUFErr (Nat × RS) :=
  match s.readBytes 8 field with
  | .error e => .error e
  | .ok (bs, s') => .ok (boVal bo bs, s')

/-- The reader context (`_GGUFReader` without the stream): format version,
read options and byte order. -/
structure GGUFReader where
  v : Nat
  o : GGUFReadOptions
  bo : ByteOrder
deriving Repr, DecidableEq

/-- `_GGUFReader.ReadUint64FromUint32` / the version-conditional width rule:
every length-bearing field is 4 bytes for version `≤ 1` and 8 bytes for
version `≥ 2`. -/
def readLen (rd : GGUFReader) (s : RS) (field : String) :
    Except GGUFErr (Nat × RS) :=
  if rd.v ≤ 1 then readU32 rd.bo s field else readU64 rd.bo s field

/-- Whether a byte is ASCII whitespace (`bytes.TrimSpace`; the non-ASCII
Unicode space code points do not occur in the inputs considered here). -/
def isSpaceByte (b : Nat) : Bool := decide (b = 32 ∨ (9 ≤ b ∧ b ≤ 13))

/-- Trim leading and trailing whitespace bytes. -/
def trimSpaceBytes (bs : List Nat) : List Nat :=
  ((bs.dropWhile isSpaceByte).reverse.dropWhile isSpaceByte).reverse

/-- Go strings (names, keys) are byte strings; they are embedded as lists
of characters so that every operation on them is kernel-computable.  A
literal is written `"blk".data`. -/
abbrev GoStr := List Char

/-- Decode a byte list as a string (the decoded names and keys are ASCII). -/
def bytesToGoStr (bs : List Nat) : GoStr :=
  bs.map Char.ofNat

/-- `strings.Split(s, ".")` tail: accumulate the current field until a dot. -/
def splitOnDotAux : GoStr → GoStr → List GoStr
  | [], cur => [cur.reverse]
  | c :: rest, cur =>
    if c = '.' then cur.reverse :: splitOnDotAux rest []
    else splitOnDotAux rest (c :: cur)

/-- `strings.Split(s, ".")`. -/
def splitOnDot (s : GoStr) : List GoStr := splitOnDotAux s []

/-- `_GGUFReader.ReadString`: version-conditional length then the bytes,
with surrounding whitespace trimmed. -/
def readString (rd : GGUFReader) (s : RS) : Except GGUFErr (GoStr × RS) :=
  match readLen rd s "string length" with
  | .error e => .error e
  | .ok (l, s1) =>
    match s1.readBytes l "string" with
    | .error e => .error e
    | .ok (bs, s2) => .ok (bytesToGoStr (trimSpaceBytes bs), s2)

/-- `_GGUFReader.SkipReadingString`: read the length, then seek past the
bytes without materializing them. -/
def skipReadingString (rd : GGUFReader) (s : RS) : Except GGUFErr RS :=
  match readLen rd s "string length" with
  | .error e => .error e
  | .ok (l, s1) => .ok (s1.seekCur l)

/-- The typed metadata value union (`GGUFMetadataKV.Value`, an `any` in Go,
holding exactly one of the recognized shapes).  Floating values are kept as
their raw bit patterns.  `vArray` carries the fields of
`GGUFMetadataKVArrayValue` inline: item type, length, materialized items
(empty when skipping), start offset and byte size. -/
inductive GGUFMetadataValue where
  | vUint8 (v : Nat)
  | vInt8 (v : Int)
  | vUint16 (v : Nat)
  | vInt16 (v : Int)
  | vUint32 (v : Nat)
  | vInt32 (v : Int)
  | vFloat32 (bits : Nat)
  | vBool (v : Bool)
  | vString (v : GoStr)
  | vArray (type : Nat) (len : Nat) (arr : List GGUFMetadataValue)
      (startOffset : Nat) (size : Nat)
  | vUint64 (v : Nat)
  | vInt64 (v : Int)
  | vFloat64 (bits : Nat)
deriving Repr

/-- `GGUFMetadataKVArrayValue` as returned by `_GGUFReader.ReadArray`. -/
structure GGUFMetadataKVArrayValue where
  type : Nat
  len : Nat
  arr : List GGUFMetadataValue
  startOffset : Nat
  size : Nat
deriving Repr

/-- `GGUFMetadataKV`: one key-value pair of the metadata. -/
structure GGUFMetadataKV where
  key : GoStr
  valueType : Nat
  value : GGUFMetadataValue
deriving Repr

/-- `GGUFTensorInfo`: one tensor descriptor. -/
structure GGUFTensorInfo where
  name : GoStr
  nDimensions : Nat
  dimensions : List Nat
  type : Nat
  offset : Nat
  startOffset : Nat
deriving Repr

/-- `GGUFHeader`. -/
structure GGUFHeader where
  magic : Nat
  version : Nat
  tensorCount : Nat
  metadataKVCount : Nat
  metadataKV : List GGUFMetadataKV
deriving Repr

/-- `GGUFFile`: the decoded result.  `modelBitsPerWeight` is a `float64` in
the source; no claim touches it, and the field is never forced by the
decoder's control flow. -/
structure GGUFFile where
  header : GGUFHeader
  tensorInfos : List GGUFTensorInfo
  padding : Nat
  tensorDataStartOffset : Nat
  modelSize : Nat
  modelParameters : Nat
  modelBitsPerWeight : Float
deriving Repr

/-- Seek width of the skip branch of `ReadArray` for a fixed-width element
type; `none` for string, array and unrecognized tags. -/
def fixedSkipWidth : Nat → Option Nat
  | 0 => some 1   -- uint8
  | 1 => some 1   -- int8
  | 7 => some 1   -- bool
  | 2 => some 2   -- uint16
  | 3 => some 2   -- int16
  | 4 => some 4   -- uint32
  | 5 => some 4   -- int32
  | 6 => some 4   -- float32
  | 10 => some 8  -- uint64
  | 11 => some 8  -- int64
  | 12 => some 8  -- float64
  | _ => none

/-- The skip loop of `ReadArray` for string-typed elements: skip each string
individually. -/
def skipStrings (rd : GGUFReader) (n : Nat) (s : RS) : Except GGUFErr RS :=
  match n with
  | 0 => .ok s
  | n + 1 =>
    match skipReadingString rd s with
    | .error e => .error e
    | .ok s1 => skipStrings rd n s1

/-- The materializing element loop of `ReadArray`, parameterized by the
element decoder (`readValue` at the next fuel level). -/
def readItemsCore
    (readElem : Nat → RS → Except GGUFErr (GGUFMetadataValue × RS)) :
    Nat → Nat → RS → Except GGUFErr (List GGUFMetadataValue × RS)
  | _, 0, s => .ok ([], s)
  | vt, n + 1, s =>
    match readElem vt s with
    | .error e => .error e
    | .ok (v, s1) =>
      match readItemsCore readElem vt n s1 with
      | .error e => .error e
      | .ok (vs, s2) => .ok (v :: vs, s2)

/-- `_GGUFReader.ReadArray`, parameterized by the element decoder: start
offset, element type, element count, then either every element
(materializing) or a seek over the exact byte span (skip mode).  The
skip-mode `default` branch is a Go `panic` ("Should not happen"), modelled
as `contractViolation`. -/
def readArrayCore
    (readElem : Nat → RS → Except GGUFErr (GGUFMetadataValue × RS))
    (rd : GGUFReader) (s : RS) :
    Except GGUFErr (GGUFMetadataKVArrayValue × RS) :=
  let startOffset := s.pos
  match readU32 rd.bo s "array item type" with
  | .error e => .error e
  | .ok (t, s1) =>
    match readLen rd s1 "array length" with
    | .error e => .error e
    | .ok (len, s2) =>
      let itemStart := s2.pos
      if ¬rd.o.skipLargeMetadata then
        match readItemsCore readElem t len s2 with
        | .error e => .error e
        | .ok (arr, s3) =>
          .ok (⟨t, len, arr, startOffset, s3.pos - itemStart⟩, s3)
      else
        let seeked : Except GGUFErr RS :=
          match fixedSkipWidth t with
          | some w => .ok (s2.seekCur (len * w))
          | none =>
            if t = mvtString then skipStrings rd len s2
            else .error (.contractViolation "invalid type")
        match seeked with
        | .error e => .error e
        | .ok s3 =>
          .ok (⟨t, len, [], startOffset, s3.pos - itemStart⟩, s3)

/-- `_GGUFReader.ReadValue`: decode one typed value given a value-type tag.
Tags `≥ _GGUFMetadataValueTypeCount` are rejected.  The fuel bounds the
array-of-array nesting depth (the Go recursion is unbounded); one unit is
consumed per value. -/
def readValue : Nat → GGUFReader → Nat → RS →
    Except GGUFErr (GGUFMetadataValue × RS)
  | 0, _, _, _ => .error .outOfFuel
  | fuel + 1, rd, vt, s =>
    if vt ≥ mvtCount then .error (.invalidValueType vt)
    else
      match vt with
      | 0 =>  -- uint8
        match readU8 s "uint8" with
        | .error e => .error e
        | .ok (v, s') => .ok (.vUint8 v, s')
      | 1 =>  -- int8
        match readU8 s "int8" with
        | .error e => .error e
        | .ok (v, s') => .ok (.vInt8 (toSigned 8 v), s')
      | 2 =>  -- uint16
        match readU16 rd.bo s "uint16" with
        | .error e => .error e
        | .ok (v, s') => .ok (.vUint16 v, s')
      | 3 =>  -- int16
        match readU16 rd.bo s "int16" with
        | .error e => .error e
        | .ok (v, s') => .ok (.vInt16 (toSigned 16 v), s')
      | 4 =>  -- uint32
        match readU32 rd.bo s "uint32" with
        | .error e => .error e
        | .ok (v, s') => .ok (.vUint32 v, s')
      | 5 =>  -- int32
        match readU32 rd.bo s "int32" with
        | .error e => .error e
        | .ok (v, s') => .ok (.vInt32 (toSigned 32 v), s')
      | 6 =>  -- float32
        match readU32 rd.bo s "float32" with
        | .error e => .error e
        | .ok (v, s') => .ok (.vFloat32 v, s')
      | 7 =>  -- bool
        match readU8 s "bool" with
        | .error e => .error e
        | .ok (v, s') => .ok (.vBool (v ≠ 0), s')
      | 8 =>  -- string
        match readString rd s with
        | .error e => .error e
        | .ok (v, s') => .ok (.vString v, s')
      | 9 =>  -- array
        match readArrayCore (fun vt' s' => readValue fuel rd vt' s') rd s with
        | .error e => .error e
        | .ok (av, s') =>
          .ok (.vArray av.type av.len av.arr av.startOffset av.size, s')
      | 10 =>  -- uint64
        match readU64 rd.bo s "uint64" with
        | .error e => .error e
        | .ok (v, s') => .ok (.vUint64 v, s')
      | 11 =>  -- int64
        match readU64 rd.bo s "int64" with
        | .error e => .error e
        | .ok (v, s') => .ok (.vInt64 (toSigned 64 v), s')
      | 12 =>  -- float64
        match readU64 rd.bo s "float64" with
        | .error e => .error e
        | .ok (v, s') => .ok (.vFloat64 v, s')
      | _ =>  -- the Go switch default: panic("Should not happen")
        .error (.contractViolation "invalid type")

/-- `_GGUFReader.ReadArray` (top-level entry, consuming one unit of fuel,
exactly as the array case of `readValue` does). -/
def readArray (fuel : Nat) (rd : GGUFReader) (s : RS) :
    Except GGUFErr (GGUFMetadataKVArrayValue × RS) :=
  match fuel with
  | 0 => .error .outOfFuel
  | fuel + 1 => readArrayCore (fun vt' s' => readValue fuel rd vt' s') rd s

/-- `GGUFMetadataKVs.Get`: first pair with the given key. -/
def metadataGet (kvs : List GGUFMetadataKV) (key : GoStr) :
    Option GGUFMetadataKV :=
  kvs.find? (fun kv => kv.key == key)

/-- `GGUFMetadataKV.ValueUint32`: panics (modelled as an error) unless the
stored tag is exactly uint32 and the stored value's dynamic type is
`uint32`. -/
def valueUint32 (kv : GGUFMetadataKV) : Except GGUFErr Nat :=
  if kv.valueType ≠ mvtUint32 then .error (.contractViolation "invalid type")
  else
    match kv.value with
    | .vUint32 v => .ok v
    | _ => .error (.contractViolation "type assertion")

/-- `ValueNumeric[T]`: the type switch together with the dynamic type
assertion performed on the stored value in each branch.  The generic numeric
cast to the target type `T` is not modelled — the claims concern which
stored values are accepted (success) versus which panic (`none`).  Note the
uint16 branch of the source asserts `kv.Value.(int16)`. -/
def valueNumericOk (kv : GGUFMetadataKV) : Option GGUFMetadataValue :=
  if kv.valueType = mvtUint8 then
    match kv.value with
    | .vUint8 v => some (.vUint8 v)
    | _ => none
  else if kv.valueType = mvtInt8 then
    match kv.value with
    | .vInt8 v => some (.vInt8 v)
    | _ => none
  else if kv.valueType = mvtUint16 then
    match kv.value with
    | .vInt16 v => some (.vInt16 v)
    | _ => none
  else if kv.valueType = mvtInt16 then
    match kv.value with
    | .vInt16 v => some (.vInt16 v)
    | _ => none
  else if kv.valueType = mvtUint32 then
    match kv.value with
    | .vUint32 v => some (.vUint32 v)
    | _ => none
  else if kv.valueType = mvtInt32 then
    match kv.value with
    | .vInt32 v => some (.vInt32 v)
    | _ => none
  else if kv.valueType = mvtFloat32 then
    match kv.value with
    | .vFloat32 v => some (.vFloat32 v)
    | _ => none
  else if kv.valueType = mvtUint64 then
    match kv.value with
    | .vUint64 v => some (.vUint64 v)
    | _ => none
  else if kv.valueType = mvtInt64 then
    match kv.value with
    | .vInt64 v => some (.vInt64 v)
    | _ => none
  else if kv.valueType = mvtFloat64 then
    match kv.value with
    | .vFloat64 v => some (.vFloat64 v)
    | _ => none
  else none

/-- `_GGUFMetadataReader.Read`: key string, value-type tag (validated
against the recognized range), then the value. -/
def readMetadataKV (fuel : Nat) (rd : GGUFReader) (s : RS) :
    Except GGUFErr (GGUFMetadataKV × RS) :=
  match readString rd s with
  | .error e => .error e
  | .ok (key, s1) =>
    match readU32 rd.bo s1 "value type" with
    | .error e => .error e
    | .ok (vt, s2) =>
      if vt ≥ mvtCount then .error (.invalidValueType vt)
      else
        match readValue fuel rd vt s2 with
        | .error e => .error e
        | .ok (v, s3) => .ok (⟨key, vt, v⟩, s3)

/-- The metadata list loop of `parseGGUFFile`. -/
def readMetadataKVs (fuel : Nat) (rd : GGUFReader) (n : Nat) (s : RS) :
    Except GGUFErr (List GGUFMetadataKV × RS) :=
  match n with
  | 0 => .ok ([], s)
  | n + 1 =>
    match readMetadataKV fuel rd s with
    | .error e => .error e
    | .ok (kv, s1) =>
      match readMetadataKVs fuel rd n s1 with
      | .error e => .error e
      | .ok (kvs, s2) => .ok (kv :: kvs, s2)

/-- The dimensions loop of `_GGUFTensorInfoReader.Read` (version-conditional
width per dimension). -/
def readDimensions (rd : GGUFReader) (n : Nat) (s : RS) :
    Except GGUFErr (List Nat × RS) :=
  match n with
  | 0 => .ok ([], s)
  | n + 1 =>
    match readLen rd s "dimension" with
    | .error e => .error e
    | .ok (d, s1) =>
      match readDimensions rd n s1 with
      | .error e => .error e
      | .ok (ds, s2) => .ok (d :: ds, s2)

/-- `_GGUFTensorInfoReader.Read`: start offset, name, dimension count, the
dimensions, the element type (validated against `_GGMLTypeCount`), and the
payload offset. -/
def readTensorInfo (rd : GGUFReader) (s : RS) :
    Except GGUFErr (GGUFTensorInfo × RS) :=
  let startOffset := s.pos
  match readString rd s with
  | .error e => .error e
  | .ok (name, s1) =>
    match readU32 rd.bo s1 "n dimensions" with
    | .error e => .error e
    | .ok (nd, s2) =>
      match readDimensions rd nd s2 with
      | .error e => .error e
      | .ok (dims, s3) =>
        match readU32 rd.bo s3 "type" with
        | .error e => .error e
        | .ok (t, s4) =>
          if t ≥ ggmlTypeCountSentinel then .error (.invalidTensorType t)
          else
            match readU64 rd.bo s4 "offset" with
            | .error e => .error e
            | .ok (off, s5) => .ok (⟨name, nd, dims, t, off, startOffset⟩, s5)

/-- The tensor-info list loop of `parseGGUFFile`. -/
def readTensorInfos (rd : GGUFReader) (n : Nat) (s : RS) :
    Except GGUFErr (List GGUFTensorInfo × RS) :=
  match n with
  | 0 => .ok ([], s)
  | n + 1 =>
    match readTensorInfo rd s with
    | .error e => .error e
    | .ok (ti, s1) =>
      match readTensorInfos rd n s1 with
      | .error e => .error e
      | .ok (tis, s2) => .ok (ti :: tis, s2)

/-- `GGUFTensorInfo.Elements`: 0 when the dimension count is 0, otherwise
the running `uint64` product over the first `NDimensions` declared sizes
(the source loops `i < NDimensions` over `Dimensions`; decoder-produced
tensors carry exactly `NDimensions` sizes). -/
def GGUFTensorInfo.Elements (ti : GGUFTensorInfo) : Nat :=
  if ti.nDimensions = 0 then 0
  else (ti.dimensions.take ti.nDimensions).foldl mul64 1

/-- The stride-table tail of `GGUFTensorInfo.Bytes`: `nb[i] =
nb[i-1] * Dimensions[i-1]` for `i ≥ 2`.  `k` counts the remaining entries,
`i` is the next index, `prev` is `nb[i-1]`. -/
def bytesNbTail (dims : List Nat) (k i prev : Nat) : List Nat :=
  match k with
  | 0 => []
  | k + 1 =>
    let cur := mul64 prev (dims.getD (i - 1) 0)
    cur :: bytesNbTail dims k (i + 1) cur

/-- The summation loop of `GGUFTensorInfo.Bytes`: `ret += (Dimensions[i] - 1)
* nb[i]` over the index range, in `uint64` arithmetic. -/
def bytesSumLoop (dims nb : List Nat) (lo hi acc : Nat) : Nat :=
  (List.range' lo (hi - lo)).foldl
    (fun a i => add64 a (mul64 (sub1u64 (dims.getD i 0)) (nb.getD i 0))) acc

/-- `GGUFTensorInfo.Bytes`: 0 for no dimensions; otherwise the strided
byte-size computation over the element type's block trait.  A missing trait
is a Go panic, modelled as `none`. -/
def GGUFTensorInfo.Bytes (ti : GGUFTensorInfo) : Option Nat :=
  if ti.nDimensions = 0 then some 0
  else
    match ggmlTrait ti.type with
    | none => none
    | some tt =>
      let d0 := ti.dimensions.getD 0 0
      let nb0 := tt.typeSize
      let nb1 := mul64 nb0 (d0 / tt.blockSize)
      let nb := nb0 :: nb1 :: bytesNbTail ti.dimensions (ti.nDimensions - 2) 2 nb1
      if tt.blockSize = 1 then
        some (bytesSumLoop ti.dimensions nb 0 ti.nDimensions tt.typeSize)
      else
        some (bytesSumLoop ti.dimensions nb 1 ti.nDimensions
          (mul64 d0 nb0 / tt.blockSize))

/-- `GGUFTensorInfo.Count`: always 1. -/
def GGUFTensorInfo.Count (_ : GGUFTensorInfo) : Nat := 1

/-- `GGUFTensorInfos.Elements`: running `uint64` sum of the per-tensor
element counts. -/
def tensorInfosElements (tis : List GGUFTensorInfo) : Nat :=
  tis.foldl (fun acc ti => add64 acc ti.Elements) 0

/-- `GGUFTensorInfos.Bytes`: running `uint64` sum of the per-tensor byte
counts; a panic of any `Bytes` (missing trait) propagates. -/
def tensorInfosBytes : List GGUFTensorInfo → Nat → Option Nat
  | [], acc => some acc
  | ti :: tis, acc =>
    match ti.Bytes with
    | none => none
    | some b => tensorInfosBytes tis (add64 acc b)

/-- `GGUFTensorInfos.Count`: the length of the list. -/
def tensorInfosCount (tis : List GGUFTensorInfo) : Nat := tis.length

/-- The alignment computation of `parseGGUFFile`: default 32, overridden by
the `general.alignment` metadata entry read through the uint32-only accessor
`ValueUint32` (whose panic on any other stored tag propagates). -/
def ggufAlignment (kvs : List GGUFMetadataKV) : Except GGUFErr Nat :=
  match metadataGet kvs "general.alignment".data with
  | none => .ok 32
  | some kv =>
    match valueUint32 kv with
    | .error e => .error e
    | .ok ag => .ok ag

/-- The tail of `parseGGUFFile` after the tensor infos: compute the
alignment, the padding `ag - (pds % ag)` (a division by zero when the
declared alignment is 0 is a Go panic), the tensor-data start offset, the
model size, parameter count and bits-per-weight, and assemble the result. -/
def finishGGUF (s : Nat) (magic version tensorCount metadataKVCount : Nat)
    (kvs : List GGUFMetadataKV) (tis : List GGUFTensorInfo) (pds : Nat) :
    Except GGUFErr GGUFFile :=
  match ggufAlignment kvs with
  | .error e => .error e
  | .ok ag =>
    if ag = 0 then .error .divideByZero
    else
      let padding := ag - pds % ag
      let tdso := pds + padding
      let modelSize := u64ofInt ((s : Int) - (tdso : Int))
      let params := tensorInfosElements tis
      let bpw : Float :=
        if params ≠ 0 then Float.ofNat modelSize * 8 / Float.ofNat params
        else 0
      .ok ⟨⟨magic, version, tensorCount, metadataKVCount, kvs⟩, tis,
        padding, tdso, modelSize, params, bpw⟩

/-- `parseGGUFFile` after the magic has been classified: version, counts
(version-conditional width), metadata entries, tensor infos, padding-start
position, then `finishGGUF`. -/
def parseGGUFRest (fuel s : Nat) (o : GGUFReadOptions) (magic : Nat)
    (bo : ByteOrder) (s0 : RS) : Except GGUFErr GGUFFile :=
  match readU32 bo s0 "version" with
  | .error e => .error e
  | .ok (version, s1) =>
    let rd : GGUFReader := ⟨version, o, bo⟩
    match readLen rd s1 "tensor count" with
    | .error e => .error e
    | .ok (tensorCount, s2) =>
      match readLen rd s2 "metadata kv count" with
      | .error e => .error e
      | .ok (kvCount, s3) =>
        match readMetadataKVs fuel rd kvCount s3 with
        | .error e => .error e
        | .ok (kvs, s4) =>
          match readTensorInfos rd tensorCount s4 with
          | .error e => .error e
          | .ok (tis, s5) =>
            finishGGUF s magic version tensorCount kvCount kvs tis s5.pos

/-- `parseGGUFFile`: read the magic little-endian, classify it (unrecognized
→ invalid format; the three legacy magics → unsupported format; the two
GGUF magics select the byte order for everything that follows). -/
def parseGGUFFile (fuel s : Nat) (data : List Nat) (o : GGUFReadOptions) :
    Except GGUFErr GGUFFile :=
  match readU32 .le ⟨data, 0⟩ "magic" with
  | .error e => .error e
  | .ok (m, s1) =>
    if m = ggufMagicGGML ∨ m = ggufMagicGGMF ∨ m = ggufMagicGGJT then
      .error (.unsupportedFormat m)
    else if m = ggufMagicGGUFLe then parseGGUFRest fuel s o m .le s1
    else if m = ggufMagicGGUFBe then parseGGUFRest fuel s o m .be s1
    else .error .invalidFormat

/-- `GGUFTensorInfo.Index`: a single leaf matches only when the FIRST query
name equals its name.  The Go `map[string]GGUFTensorInfo` result is
embedded as an association list. -/
def GGUFTensorInfo.Index (ti : GGUFTensorInfo) (names : List GoStr) :
    List (GoStr × GGUFTensorInfo) × Nat :=
  match names with
  | [] => ([], 0)
  | n0 :: _ => if n0 = ti.name then ([(ti.name, ti)], 1) else ([], 0)

/-- Map-style insert-or-overwrite on the association list embedding of the
Go result map. -/
def assocSet (l : List (GoStr × GGUFTensorInfo)) (k : GoStr)
    (v : GGUFTensorInfo) : List (GoStr × GGUFTensorInfo) :=
  if l.any (fun p => p.1 == k) then
    l.map (fun p => if p.1 = k then (k, v) else p)
  else l ++ [(k, v)]

/-- The loop of `GGUFTensorInfos.Index`, with the early break once `found`
reaches the number of distinct query names. -/
def tensorInfosIndexGo (tis : List GGUFTensorInfo) (names : List GoStr)
    (k : Nat) (infos : List (GoStr × GGUFTensorInfo)) (found : Nat) :
    List (GoStr × GGUFTensorInfo) × Nat :=
  match tis with
  | [] => (infos, found)
  | ti :: rest =>
    let next :=
      if names.contains ti.name then (assocSet infos ti.name ti, found + 1)
      else (infos, found)
    if next.2 = k then next
    else tensorInfosIndexGo rest names k next.1 next.2

/-- `GGUFTensorInfos.Index`: collect every tensor whose name is a member of
the query set (the set has one entry per distinct name). -/
def tensorInfosIndex (tis : List GGUFTensorInfo) (names : List GoStr) :
    List (GoStr × GGUFTensorInfo) × Nat :=
  tensorInfosIndexGo tis names names.dedup.length [] 0

/-- One node of the regrouped layer tree (`GGUFLayerTensorInfos` items):
either a leaf `GGUFTensorInfo` or a named branch
(`*GGUFNamedTensorInfos`). -/
inductive GGUFLayerItem where
  | leaf (ti : GGUFTensorInfo)
  | named (name : GoStr) (items : List GGUFLayerItem)
deriving Repr

/-- Whether the list holds a branch with the given name (the `pm` bookkeeping
map of `GGUFFile.layers`; branch keys are globally unique by construction,
so a name lookup in the growing tree is equivalent). -/
def hasNamed (l : List GGUFLayerItem) (n : GoStr) : Bool :=
  l.any fun it =>
    match it with
    | .named m _ => m == n
    | .leaf _ => false

/-- Create-and-append a fresh empty branch unless one with this name already
exists (the `if _, ok := pm[p]; !ok` blocks of `GGUFFile.layers`). -/
def ensureNamed (l : List GGUFLayerItem) (n : GoStr) : List GGUFLayerItem :=
  if hasNamed l n then l else l ++ [.named n []]

/-- Rewrite the first branch with the given name through `f` (the Go code
mutates the branch through the `pm` pointer). -/
def modifyNamed : List GGUFLayerItem → GoStr →
    (List GGUFLayerItem → List GGUFLayerItem) → List GGUFLayerItem
  | [], _, _ => []
  | .leaf ti :: rest, n, f => .leaf ti :: modifyNamed rest n f
  | .named m items :: rest, n, f =>
    if m = n then .named m (f items) :: rest
    else .named m items :: modifyNamed rest n f

/-- Append an item to the children of the first branch with the given
name. -/
def appendIntoNamed (l : List GGUFLayerItem) (n : GoStr)
    (x : GGUFLayerItem) : List GGUFLayerItem :=
  modifyNamed l n (fun items => items ++ [x])

/-- One iteration of the `GGUFFile.layers` loop: place one tensor in the
tree according to the dotted name convention. -/
def layersStep (ret : List GGUFLayerItem) (ti : GGUFTensorInfo) :
    List GGUFLayerItem :=
  let ps := splitOnDot ti.name
  if 2 ≤ ps.length ∧ ps.getD 0 [] = "blk".data then
    let p := ps.getD 0 [] ++ '.' :: ps.getD 1 []
    appendIntoNamed (ensureNamed ret p) p (.leaf ti)
  else if 3 ≤ ps.length ∧
      (ps.getD 0 [] = "decoder".data ∨ ps.getD 0 [] = "encoder".data) then
    let p0 := ps.getD 0 []
    let ret1 := ensureNamed ret p0
    if ps.getD 1 [] ≠ "block".data then appendIntoNamed ret1 p0 (.leaf ti)
    else
      let p2 := p0 ++ '.' :: ps.getD 1 [] ++ '.' :: ps.getD 2 []
      modifyNamed ret1 p0 (fun items =>
        appendIntoNamed (ensureNamed items p2) p2 (.leaf ti))
  else ret ++ [.leaf ti]

/-- `GGUFFile.layers`: regroup the flat tensor list into the layer tree. -/
def layersOfTensorInfos (tis : List GGUFTensorInfo) : List GGUFLayerItem :=
  tis.foldl layersStep []

/-- `GGUFFile.layers` (method form). -/
def GGUFFile.layers (gf : GGUFFile) : List GGUFLayerItem :=
  layersOfTensorInfos gf.tensorInfos

/-- `GGUFLayerTensorInfos.Cut`: partition the top-level entries by key
membership. -/
def layersCut (ltis : List GGUFLayerItem) (names : List GoStr) :
    List GGUFLayerItem × List GGUFLayerItem × Bool :=
  let ba := ltis.foldl
    (fun (ba : List GGUFLayerItem × List GGUFLayerItem) it =>
      match it with
      | .leaf ti =>
        if names.contains ti.name then (ba.1 ++ [it], ba.2)
        else (ba.1, ba.2 ++ [it])
      | .named m _ =>
        if names.contains m then (ba.1 ++ [it], ba.2)
        else (ba.1, ba.2 ++ [it]))
    ([], [])
  (ba.1, ba.2, ba.1.length > 0)

/-- `GGUFFile.Layers`: the tree, with matching top-level groups carved out
when an ignore set is supplied. -/
def GGUFFile.Layers (gf : GGUFFile) (ignores : List GoStr) :
    List GGUFLayerItem :=
  let ls := gf.layers
  if ignores.length ≠ 0 then (layersCut ls ignores).2.1 else ls

mutual

/-- `Elements` of one tree node: a leaf answers directly, a branch recurses
(`GGUFNamedTensorInfos` promotes `GGUFLayerTensorInfos.Elements`). -/
def layerItemElements : GGUFLayerItem → Nat
  | .leaf ti => ti.Elements
  | .named _ items => layerElementsAux items 0

/-- The running-sum loop of `GGUFLayerTensorInfos.Elements`. -/
def layerElementsAux : List GGUFLayerItem → Nat → Nat
  | [], acc => acc
  | it :: rest, acc => layerElementsAux rest (add64 acc (layerItemElements it))

end

/-- `GGUFLayerTensorInfos.Elements`. -/
def layerElements (ltis : List GGUFLayerItem) : Nat := layerElementsAux ltis 0

mutual

/-- `Bytes` of one tree node; a missing trait panic propagates as `none`. -/
def layerItemBytes : GGUFLayerItem → Option Nat
  | .leaf ti => ti.Bytes
  | .named _ items => layerBytesAux items 0

/-- The running-sum loop of `GGUFLayerTensorInfos.Bytes`. -/
def layerBytesAux : List GGUFLayerItem → Nat → Option Nat
  | [], acc => some acc
  | it :: rest, acc =>
    match layerItemBytes it with
    | none => none
    | some b => layerBytesAux rest (add64 acc b)

end

/-- `GGUFLayerTensorInfos.Bytes`. -/
def layerBytes (ltis : List GGUFLayerItem) : Option Nat := layerBytesAux ltis 0

mutual

/-- `Count` of one tree node: a leaf counts 1. -/
def layerItemCount : GGUFLayerItem → Nat
  | .leaf _ => 1
  | .named _ items => layerCountAux items 0

/-- The running-sum loop of `GGUFLayerTensorInfos.Count`. -/
def layerCountAux : List GGUFLayerItem → Nat → Nat
  | [], acc => acc
  | it :: rest, acc => layerCountAux rest (add64 acc (layerItemCount it))

end

/-- `GGUFLayerTensorInfos.Count`. -/
def layerCount (ltis : List GGUFLayerItem) : Nat := layerCountAux ltis 0

/-- The counting pass of `guessFileType` over an association list (the Go
`map[GGMLType]int`; iteration/owner order is modelled as first-occurrence
order — the claims below do not depend on how count ties are ordered). -/
def bumpType (cm : List (Nat × Nat)) (t : Nat) : List (Nat × Nat) :=
  match cm with
  | [] => [(t, 1)]
  | (u, c) :: rest =>
    if u = t then (u, c + 1) :: rest else (u, c) :: bumpType rest t

/-- One step of the counting pass: count only tensors whose name starts
with "blk" (`strings.HasPrefix`). -/
def blkCountStep (cm : List (Nat × Nat)) (ti : GGUFTensorInfo) :
    List (Nat × Nat) :=
  if List.isPrefixOf "blk".data ti.name then bumpType cm ti.type else cm

/-- Count element-type occurrences among tensors whose name starts with
"blk". -/
def blkTypeCounts (tis : List GGUFTensorInfo) : List (Nat × Nat) :=
  tis.foldl blkCountStep []

/-- Stable insertion for the descending-count sort (`sort.Slice` with
`cm[ts[i]] > cm[ts[j]]`; the Go sort is not stable and map order is
randomized, so tie order is unspecified there — this is one admissible
outcome). -/
def insertByCountDesc (x : Nat × Nat) : List (Nat × Nat) → List (Nat × Nat)
  | [] => [x]
  | y :: ys => if x.2 ≤ y.2 then y :: insertByCountDesc x ys else x :: y :: ys

/-- Sort the counted types by descending occurrence count. -/
def sortByCountDesc (l : List (Nat × Nat)) : List (Nat × Nat) :=
  l.foldr insertByCountDesc []

/-- The ranked type list `ts` of `guessFileType`. -/
def rankedBlkTypes (tis : List GGUFTensorInfo) : List Nat :=
  (sortByCountDesc (blkTypeCounts tis)).map Prod.fst

/-- The switch of `guessFileType` over the ranked list.  The Q3_K branch
evaluates `ts[1]` without a bounds check: when only Q3_K occurs the Go code
panics with an index-out-of-range — modelled as `none`.  The Q4_K and Q5_K
branches guard their `ts[2]` accesses with `len(ts) > 2`. -/
def guessFromRanked (ts : List Nat) : Option Nat :=
  match ts with
  | [] => some ggufFileTypeCountSentinel
  | t0 :: rest =>
    if t0 = ggmlTypeF32 then some ggufFileTypeAllF32
    else if t0 = ggmlTypeF16 then some ggufFileTypeMostlyF16
    else if t0 = ggmlTypeQ4_0 then some ggufFileTypeMostlyQ4_0
    else if t0 = ggmlTypeQ4_1 then some ggufFileTypeMostlyQ4_1
    else if t0 = ggmlTypeQ4_2 then some ggufFileTypeMostlyQ4_2
    else if t0 = ggmlTypeQ4_3 then some ggufFileTypeMostlyQ4_3
    else if t0 = ggmlTypeQ5_0 then some ggufFileTypeMostlyQ5_0
    else if t0 = ggmlTypeQ5_1 then some ggufFileTypeMostlyQ5_1
    else if t0 = ggmlTypeQ8_0 then some ggufFileTypeMostlyQ8_0
    else if t0 = ggmlTypeQ2_K then some ggufFileTypeMostlyQ2_K
    else if t0 = ggmlTypeQ3_K then
      match rest with
      | [] => none
      | t1 :: _ =>
        if t1 = ggmlTypeQ4_K then some ggufFileTypeMostlyQ4_K
        else if t1 = ggmlTypeQ5_K then some ggufFileTypeMostlyQ5_K
        else some ggufFileTypeMostlyQ3_K
    else if t0 = ggmlTypeQ4_K then
      if 2 < (t0 :: rest).length ∧
          (t0 :: rest).getD 2 ggmlTypeCountSentinel = ggmlTypeQ6_K then
        some ggufFileTypeMostlyIQ2_XXS
      else some ggufFileTypeMostlyQ6_K
    else if t0 = ggmlTypeQ5_K then
      if 2 < (t0 :: rest).length ∧
          (t0 :: rest).getD 2 ggmlTypeCountSentinel = ggmlTypeQ6_K then
        some ggufFileTypeMostlyIQ3_XXS
      else some ggufFileTypeMostlyIQ2_XS
    else if t0 = ggmlTypeQ6_K then some ggufFileTypeMostlyIQ1_S
    else if t0 = ggmlTypeIQ2_XXS then some ggufFileTypeMostlyIQ2_XXS
    else if t0 = ggmlTypeIQ2_XS then some ggufFileTypeMostlyIQ2_XS
    else if t0 = ggmlTypeIQ3_XXS then some ggufFileTypeMostlyIQ3_XXS
    else if t0 = ggmlTypeIQ1_S then some ggufFileTypeMostlyIQ1_S
    else if t0 = ggmlTypeIQ4_NL then some ggufFileTypeMostlyIQ4_NL
    else if t0 = ggmlTypeIQ3_S then some ggufFileTypeMostlyIQ3_S
    else if t0 = ggmlTypeIQ2_S then some ggufFileTypeMostlyIQ2_S
    else if t0 = ggmlTypeIQ4_XS then some ggufFileTypeMostlyIQ4_XS
    else if t0 = ggmlTypeIQ1_M then some ggufFileTypeMostlyIQ1_M
    else if t0 = ggmlTypeBF16 then some ggufFileTypeMostlyBF16
    else some ggufFileTypeCountSentinel

/-- `GGUFFile.guessFileType` over the tensor list. -/
def guessFileTypeOfTensorInfos (tis : List GGUFTensorInfo) : Option Nat :=
  if tis.length = 0 then some ggufFileTypeCountSentinel
  else
    let ts := rankedBlkTypes tis
    if ts.length = 0 then some ggufFileTypeCountSentinel
    else guessFromRanked ts

/-- `GGUFFile.guessFileType` (method form). -/
def GGUFFile.guessFileType (gf : GGUFFile) : Option Nat :=
  guessFileTypeOfTensorInfos gf.tensorInfos

/-- Build a decoded-file value around a tensor list (the inferencer and the
layer builder read nothing else). -/
def mkGGUFFile (tis : List GGUFTensorInfo) : GGUFFile :=
  ⟨⟨ggufMagicGGUFLe, 3, tis.length, 0, []⟩, tis, 0, 0, 0, 0, 0⟩

/-! Concrete inputs used by counterexamples and witnesses. -/

/-- A tensor list whose only "blk"-prefixed tensor type is Q3_K. -/
def q3kOnlyTensor : GGUFTensorInfo :=
  ⟨"blk.0.attn_q.weight".data, 1, [1], ggmlTypeQ3_K, 0, 0⟩

/-- A "blk"-prefixed Q4_K tensor. -/
def blkQ4KTensor : GGUFTensorInfo :=
  ⟨"blk.0.ffn_down.weight".data, 2, [4, 4], ggmlTypeQ4_K, 0, 0⟩

/-- A "blk"-prefixed Q6_K tensor. -/
def blkQ6KTensor : GGUFTensorInfo :=
  ⟨"blk.0.output.weight".data, 2, [4, 4], ggmlTypeQ6_K, 0, 0⟩

/-- A complete little-endian GGUF file, version 3: one metadata entry
(`general.alignment`, stored as uint32, value 8) and one tensor
("tensorA", one dimension of size 4, element type F32, payload offset 0).
Its tensor infos end at stream position 96, a multiple of the alignment. -/
def alignedFileBytes : List Nat :=
  [71, 71, 85, 70, 3, 0, 0, 0, 1, 0, 0, 0, 0, 0, 0, 0, 1, 0, 0, 0, 0, 0,
   0, 0, 17, 0, 0, 0, 0, 0, 0, 0, 103, 101, 110, 101, 114, 97, 108, 46,
   97, 108, 105, 103, 110, 109, 101, 110, 116, 4, 0, 0, 0, 8, 0, 0, 0, 7,
   0, 0, 0, 0, 0, 0, 0, 116, 101, 110, 115, 111, 114, 65, 1, 0, 0, 0, 4,
   0, 0, 0, 0, 0, 0, 0, 0, 0, 0, 0, 0, 0, 0, 0, 0, 0, 0, 0]

/-- A little-endian GGUF file, version 3, with no tensors and a single
`general.alignment` metadata entry stored as uint64 (value 64). -/
def u64AlignmentFileBytes : List Nat :=
  [71, 71, 85, 70] ++ [3, 0, 0, 0] ++ List.replicate 8 0 ++
  [1, 0, 0, 0, 0, 0, 0, 0] ++ [17, 0, 0, 0, 0, 0, 0, 0] ++
  [103, 101, 110, 101, 114, 97, 108, 46, 97, 108, 105, 103, 110, 109,
   101, 110, 116] ++ [10, 0, 0, 0] ++ [64, 0, 0, 0, 0, 0, 0, 0]

/-- Bytes of an array metadata value whose element type is itself array:
outer item type 9 (array), length 1, one nested array of uint8s of
length 0. -/
def nestedArrayBytes : List Nat :=
  [9, 0, 0, 0] ++ [1, 0, 0, 0, 0, 0, 0, 0] ++ [0, 0, 0, 0] ++
  [0, 0, 0, 0, 0, 0, 0, 0]

/-- Bytes of an array metadata value of two uint16 elements. -/
def uint16ArrayBytes : List Nat :=
  [2, 0, 0, 0] ++ [2, 0, 0, 0, 0, 0, 0, 0] ++ [5, 0, 6, 0]

/-- A mixed tensor list exercising every grouping rule of the layer
builder: a "blk" group, a top-level leaf, a "decoder.block" sub-group and
a direct "decoder" child. -/
def mixedTensorList : List GGUFTensorInfo :=
  [⟨"blk.0.attn.weight".data, 1, [3], ggmlTypeF32, 0, 0⟩,
   ⟨"token_embd.weight".data, 2, [2, 3], ggmlTypeF16, 0, 0⟩,
   ⟨"decoder.block.0.w".data, 1, [5], ggmlTypeF32, 0, 0⟩,
   ⟨"decoder.embed_tokens.w".data, 1, [7], ggmlTypeF32, 0, 0⟩,
   ⟨"blk.0.ffn.weight".data, 1, [11], ggmlTypeQ4_K, 0, 0⟩]

/-! # Theorems -/

/-- C2: the claim says file-type inference never fails, every ranked-list
index being in bounds.  It is not: on a decoded file whose only
"blk"-prefixed tensor has element type Q3_K, the ranked list is `[Q3_K]`
and the Q3_K branch evaluates `ts[1]`, an index out of range — a Go runtime
panic (modelled as `none`). -/
theorem C2_q3k_index_out_of_range :
    GGUFFile.guessFileType (mkGGUFFile [q3kOnlyTensor]) = none := by
  rfl

/-- C3 counterexample: on the 80%/20% Q4_K/Q6_K synthetic tensor list the
inference returns `GGUFFileTypeMostlyQ6_K` (the legacy "Q4_K_S" tag), not
`GGUFFileTypeMostlyIQ2_XXS` (the legacy "Q4_K_M" tag) the claim requires:
the Q4_K branch demands Q6_K as the THIRD-ranked type, and here Q6_K ranks
second. -/
theorem C3_counterexample :
    GGUFFile.guessFileType (mkGGUFFile
        (List.replicate 8 blkQ4KTensor ++ List.replicate 2 blkQ6KTensor)) =
      some ggufFileTypeMostlyQ6_K ∧
    ggufFileTypeMostlyQ6_K ≠ ggufFileTypeMostlyIQ2_XXS := by
  exact ⟨by rfl, by decide⟩

/-- C5: the uint16 branch of `ValueNumeric` performs the type assertion
`kv.Value.(int16)` on a value whose dynamic type is `uint16` (as stored by
the decoder for the uint16 tag), so a stored uint16 panics instead of being
cast — contradicting the function's own documentation ("accepts any integer
or floating tag").  Sibling integer tags succeed. -/
theorem C5_uint16_assertion_panics :
    valueNumericOk ⟨"general.quantization_version".data, mvtUint16, .vUint16 7⟩ =
      none ∧
    valueNumericOk ⟨"general.quantization_version".data, mvtInt16, .vInt16 7⟩ =
      some (.vInt16 7) ∧
    valueNumericOk ⟨"general.quantization_version".data, mvtUint32, .vUint32 7⟩ =
      some (.vUint32 7) ∧
    readValue 1 ⟨3, ⟨false⟩, .le⟩ mvtUint16 ⟨[7, 0], 0⟩ =
      .ok (.vUint16 7, ⟨[7, 0], 2⟩) := by
  exact ⟨rfl, rfl, rfl, rfl⟩

/-- C10: a single leaf's `Index` finds the tensor exactly when the FIRST
query name equals its name (one-entry map, found = 1), and returns the
empty result otherwise — whereas the flat-list `Index` on the same single
tensor matches membership anywhere in the query list. -/
theorem C10_leaf_index_first_name_only :
    ∀ (ti : GGUFTensorInfo) (ns : List GoStr),
      (ti.Index ns =
        if ns.head? = some ti.name then ([(ti.name, ti)], 1) else ([], 0)) ∧
      (tensorInfosIndex [ti] ns).2 = (if ns.contains ti.name then 1 else 0) := by
  intro ti ns
  constructor
  · cases ns with
    | nil => simp [GGUFTensorInfo.Index]
    | cons n rest =>
      by_cases h : n = ti.name
      · simp [GGUFTensorInfo.Index, h]
      · simp [GGUFTensorInfo.Index, h, Ne.symm h]
  · by_cases hc : ns.contains ti.name
    · simp only [tensorInfosIndex, tensorInfosIndexGo, hc, if_true]
      split <;> simp
    · simp only [tensorInfosIndex, tensorInfosIndexGo, hc, if_false]
      split <;> simp

/-- C8 counterexample: a file whose `general.alignment` entry is stored
with the uint64 tag (value 64) makes the decode panic through the
uint32-only accessor `ValueUint32` instead of using the numeric value 64 as
alignment. -/
theorem C8_counterexample :
    parseGGUFFile 4 200 u64AlignmentFileBytes ⟨false⟩ =
      .error (.contractViolation "invalid type") := by
  rfl

/-- C8 amended: the alignment computation of `parseGGUFFile` succeeds (with
`a`) exactly when the `general.alignment` entry is absent (then `a = 32`) or
is stored with tag uint32 and dynamic type `uint32` holding `a`; every other
stored tag — numeric ones included — panics. -/
theorem C8_alignment_uint32_only :
    ∀ (kvs : List GGUFMetadataKV) (a : Nat),
      ggufAlignment kvs = .ok a ↔
        (metadataGet kvs "general.alignment".data = none ∧ a = 32) ∨
        (∃ kv, metadataGet kvs "general.alignment".data = some kv ∧
          kv.valueType = mvtUint32 ∧ kv.value = .vUint32 a) := by
  intro kvs a
  cases hm : metadataGet kvs "general.alignment".data with
  | none =>
    simp [ggufAlignment, hm]
    exact eq_comm
  | some kv =>
    simp only [ggufAlignment, hm, Option.some.injEq, reduceCtorEq, false_and,
      or_false, false_or]
    by_cases ht : kv.valueType = mvtUint32
    · cases hv : kv.value <;>
        simp [valueUint32, ht, hv, eq_comm]
    · simp only [valueUint32, ht]
      constructor
      · intro h
        rw [if_pos ht] at h
        simp at h
      · rintro ⟨kv', hkv, ht', hv⟩
        cases hkv
        exact absurd ht' ht
/-- C1 counterexample: on `alignedFileBytes` the padding-start offset is
`P = 96`, the declared alignment is `A = 8` (a multiple of 8), and the
decoder computes padding `8` and tensor-data start offset `S = 104`: here
`S - P = 8 = A`, refuting the claimed strict bound `S - P < A` (and the
claimed `S = P + something less than A` for aligned `P`). -/
theorem C1_counterexample :
    (parseGGUFFile 4 120 alignedFileBytes ⟨false⟩).map
        (fun gf => (gf.padding, gf.tensorDataStartOffset)) = .ok (8, 104) ∧
    (parseGGUFFile 4 120 alignedFileBytes ⟨false⟩).map
        (fun gf => ggufAlignment gf.header.metadataKV) = .ok (.ok 8) ∧
    ¬(104 - 96 < 8) ∧ 96 % 8 = 0 := by
  exact ⟨rfl, rfl, by decide, by decide⟩

/-- C4 counterexample: on a well-formed array-of-array metadata value the
materializing decode succeeds (type 9, length 1, byte span 12) while the
skip-large-metadata decode hits the "Should not happen" panic of the skip
switch instead of producing the same byte span. -/
theorem C4_counterexample :
    (readArray 2 ⟨3, ⟨false⟩, .le⟩ ⟨nestedArrayBytes, 0⟩).map
        (fun p => (p.1.type, p.1.len, p.1.startOffset, p.1.size, p.2.pos)) =
      .ok (9, 1, 0, 12, 24) ∧
    readArray 2 ⟨3, ⟨true⟩, .le⟩ ⟨nestedArrayBytes, 0⟩ =
      .error (.contractViolation "invalid type") := by
  exact ⟨rfl, rfl⟩

/-! Counting lemmas for the amended C3 statement. -/

theorem blkCountStep_q4 (cm : List (Nat × Nat)) :
    blkCountStep cm blkQ4KTensor = bumpType cm ggmlTypeQ4_K := by
  simp [blkCountStep, blkQ4KTensor]

theorem blkCountStep_q6 (cm : List (Nat × Nat)) :
    blkCountStep cm blkQ6KTensor = bumpType cm ggmlTypeQ6_K := by
  simp [blkCountStep, blkQ6KTensor]

theorem foldl_blkCountStep_q4 :
    ∀ (n k : Nat),
      List.foldl blkCountStep [(ggmlTypeQ4_K, k)]
        (List.replicate n blkQ4KTensor) = [(ggmlTypeQ4_K, k + n)] := by
  intro n
  induction n with
  | zero => intro k; simp
  | succ n ih =>
    intro k
    rw [List.replicate_succ, List.foldl_cons, blkCountStep_q4]
    have hb : bumpType [(ggmlTypeQ4_K, k)] ggmlTypeQ4_K =
        [(ggmlTypeQ4_K, k + 1)] := by simp [bumpType]
    rw [hb, ih (k + 1)]
    have : k + 1 + n = k + (n + 1) := by omega
    rw [this]

theorem foldl_blkCountStep_q6 :
    ∀ (n k c : Nat),
      List.foldl blkCountStep [(ggmlTypeQ4_K, k), (ggmlTypeQ6_K, c)]
        (List.replicate n blkQ6KTensor) =
      [(ggmlTypeQ4_K, k), (ggmlTypeQ6_K, c + n)] := by
  intro n
  induction n with
  | zero => intro k c; simp
  | succ n ih =>
    intro k c
    rw [List.replicate_succ, List.foldl_cons, blkCountStep_q6]
    have hb : bumpType [(ggmlTypeQ4_K, k), (ggmlTypeQ6_K, c)] ggmlTypeQ6_K =
        [(ggmlTypeQ4_K, k), (ggmlTypeQ6_K, c + 1)] := by
      simp [bumpType, ggmlTypeQ4_K, ggmlTypeQ6_K]
    rw [hb, ih k (c + 1)]
    have : c + 1 + n = c + (n + 1) := by omega
    rw [this]

/-- C3 amended: on a two-type "blk" tensor population with Q4_K strictly
more frequent than Q6_K (the spec's 80%/20% scenario included), inference
returns the legacy "Q4_K_S" tag `GGUFFileTypeMostlyQ6_K`: the legacy
"Q4_K_M" tag would require Q6_K to rank third, behind some second type. -/
theorem C3_q4k_q6k_two_types_give_q4ks (a b : Nat) (hb : 1 ≤ b)
    (hab : b < a) :
    GGUFFile.guessFileType (mkGGUFFile
        (List.replicate a blkQ4KTensor ++ List.replicate b blkQ6KTensor)) =
      some ggufFileTypeMostlyQ6_K := by
  cases a with
  | zero => omega
  | succ a' =>
    cases b with
    | zero => omega
    | succ b' =>
      show guessFileTypeOfTensorInfos
          (List.replicate (a' + 1) blkQ4KTensor ++
            List.replicate (b' + 1) blkQ6KTensor) = _
      have hcounts : blkTypeCounts
          (List.replicate (a' + 1) blkQ4KTensor ++
            List.replicate (b' + 1) blkQ6KTensor) =
          [(ggmlTypeQ4_K, a' + 1), (ggmlTypeQ6_K, b' + 1)] := by
        unfold blkTypeCounts
        rw [List.foldl_append]
        have h4 : List.foldl blkCountStep []
            (List.replicate (a' + 1) blkQ4KTensor) =
            [(ggmlTypeQ4_K, a' + 1)] := by
          rw [List.replicate_succ, List.foldl_cons, blkCountStep_q4]
          have h0 : bumpType [] ggmlTypeQ4_K = [(ggmlTypeQ4_K, 1)] := by
            simp [bumpType]
          rw [h0, foldl_blkCountStep_q4]
          have : 1 + a' = a' + 1 := by omega
          rw [this]
        rw [h4, List.replicate_succ, List.foldl_cons, blkCountStep_q6]
        have h1 : bumpType [(ggmlTypeQ4_K, a' + 1)] ggmlTypeQ6_K =
            [(ggmlTypeQ4_K, a' + 1), (ggmlTypeQ6_K, 1)] := by
          simp [bumpType, ggmlTypeQ4_K, ggmlTypeQ6_K]
        rw [h1, foldl_blkCountStep_q6]
        have : 1 + b' = b' + 1 := by omega
        rw [this]
      have hranked : rankedBlkTypes
          (List.replicate (a' + 1) blkQ4KTensor ++
            List.replicate (b' + 1) blkQ6KTensor) =
          [ggmlTypeQ4_K, ggmlTypeQ6_K] := by
        unfold rankedBlkTypes
        rw [hcounts]
        have hsort : sortByCountDesc
            [(ggmlTypeQ4_K, a' + 1), (ggmlTypeQ6_K, b' + 1)] =
            [(ggmlTypeQ4_K, a' + 1), (ggmlTypeQ6_K, b' + 1)] := by
          unfold sortByCountDesc
          rw [List.foldr_cons, List.foldr_cons, List.foldr_nil]
          show insertByCountDesc (ggmlTypeQ4_K, a' + 1)
              (insertByCountDesc (ggmlTypeQ6_K, b' + 1) []) = _
          rw [insertByCountDesc, insertByCountDesc]
          rw [if_neg (by simp; omega)]
        rw [hsort]
        rfl
      unfold guessFileTypeOfTensorInfos
      rw [if_neg (by simp)]
      rw [hranked]
      rfl

theorem C3_q4k_q6k_two_types_give_q4ks_witness :
    1 ≤ 2 ∧ 2 < 8 ∧
    GGUFFile.guessFileType (mkGGUFFile
        (List.replicate 8 blkQ4KTensor ++ List.replicate 2 blkQ6KTensor)) =
      some ggufFileTypeMostlyQ6_K :=
  ⟨by decide, by decide,
    C3_q4k_q6k_two_types_give_q4ks 8 2 (by decide) (by decide)⟩

/-- C9: decoding fails or proceeds on the magic tag exactly as classified.
If the 4 magic bytes cannot be read the read error propagates; otherwise
each of the three recognized legacy magics (GGML, GGMF, GGJT) yields the
explicit unsupported-format error, the little-endian GGUF magic continues
decoding with little-endian reads, the big-endian GGUF magic continues with
big-endian reads for all subsequent multi-byte fields, and any other magic
yields the invalid-format error, so decoding never continues past the
magic. -/
theorem C9_magic_classification (fuel s : Nat) (data : List Nat)
    (o : GGUFReadOptions) :
    (∀ e, readU32 .le ⟨data, 0⟩ "magic" = .error e →
      parseGGUFFile fuel s data o = .error e) ∧
    (∀ m s1, readU32 .le ⟨data, 0⟩ "magic" = .ok (m, s1) →
      (m = ggufMagicGGML ∨ m = ggufMagicGGMF ∨ m = ggufMagicGGJT →
        parseGGUFFile fuel s data o = .error (.unsupportedFormat m)) ∧
      (m = ggufMagicGGUFLe →
        parseGGUFFile fuel s data o = parseGGUFRest fuel s o m .le s1) ∧
      (m = ggufMagicGGUFBe →
        parseGGUFFile fuel s data o = parseGGUFRest fuel s o m .be s1) ∧
      (m ≠ ggufMagicGGML → m ≠ ggufMagicGGMF → m ≠ ggufMagicGGJT →
        m ≠ ggufMagicGGUFLe → m ≠ ggufMagicGGUFBe →
        parseGGUFFile fuel s data o = .error .invalidFormat)) := by
  constructor
  · intro e he
    unfold parseGGUFFile
    rw [he]
  · intro m s1 hm
    unfold parseGGUFFile
    rw [hm]
    dsimp only
    refine ⟨fun hleg => ?_, fun hle => ?_, fun hbe => ?_,
      fun h1 h2 h3 h4 h5 => ?_⟩
    · rw [if_pos hleg]
    · have hnleg : ¬(m = ggufMagicGGML ∨ m = ggufMagicGGMF ∨
          m = ggufMagicGGJT) := by
        subst hle; decide
      rw [if_neg hnleg, if_pos hle]
    · have hnleg : ¬(m = ggufMagicGGML ∨ m = ggufMagicGGMF ∨
          m = ggufMagicGGJT) := by
        subst hbe; decide
      have hnle : m ≠ ggufMagicGGUFLe := by subst hbe; decide
      rw [if_neg hnleg, if_neg hnle, if_pos hbe]
    · rw [if_neg (by tauto), if_neg h4, if_neg h5]

theorem C9_magic_classification_witness :
    readU32 .le ⟨[0x6c, 0x6d, 0x67, 0x67], 0⟩ "magic" =
      .ok (ggufMagicGGML, ⟨[0x6c, 0x6d, 0x67, 0x67], 4⟩) ∧
    parseGGUFFile 1 0 [0x6c, 0x6d, 0x67, 0x67] ⟨false⟩ =
      .error (.unsupportedFormat ggufMagicGGML) :=
  ⟨by rfl,
    (((C9_magic_classification 1 0 [0x6c, 0x6d, 0x67, 0x67] ⟨false⟩).2
      ggufMagicGGML ⟨[0x6c, 0x6d, 0x67, 0x67], 4⟩ (by rfl)).1
      (Or.inl rfl))⟩

/-- The running `uint64` product underlying `GGUFTensorInfo.Elements`. -/
theorem foldl_mul64_eq (l : List Nat) :
    ∀ a : Nat, List.foldl mul64 (a % M64) l = a * l.prod % M64 := by
  induction l with
  | nil => intro a; simp
  | cons x xs ih =>
    intro a
    rw [List.foldl_cons]
    have hstep : mul64 (a % M64) x = (a * x) % M64 := by
      unfold mul64
      exact Nat.mod_mul_mod
    rw [hstep, ih (a * x), List.prod_cons, Nat.mul_assoc]

/-- Every trait of the table has a `uint64`-small scalar byte width. -/
theorem ggmlTrait_typeSize_lt (t : Nat) (tr : GGMLTypeTrait)
    (h : ggmlTrait t = some tr) : tr.typeSize < M64 := by
  have hle : tr.typeSize ≤ 210 := by
    unfold ggmlTrait at h
    split at h
    all_goals first
      | (cases h; decide)
      | exact Option.noConfusion h
  have : (210 : Nat) < M64 := by decide
  omega

/-- C7: `Elements` is 0 for a zero dimension count and otherwise the product
of all declared dimension sizes (when that product fits `uint64` — the Go
arithmetic wraps); and for a tensor of a dense element type (block size 1)
with shape `[1]`, `Bytes` is exactly the type's scalar byte width. -/
theorem C7_elements_product_and_dense_bytes (ti : GGUFTensorInfo) :
    (ti.nDimensions = 0 → ti.Elements = 0) ∧
    (ti.dimensions.length = ti.nDimensions → 0 < ti.nDimensions →
      ti.dimensions.prod < M64 → ti.Elements = ti.dimensions.prod) ∧
    (∀ tr, ggmlTrait ti.type = some tr → tr.blockSize = 1 →
      ti.nDimensions = 1 → ti.dimensions = [1] →
      ti.Bytes = some tr.typeSize) := by
  refine ⟨fun h0 => ?_, fun hlen hpos hlt => ?_, fun tr htr hbs hnd hdims => ?_⟩
  · unfold GGUFTensorInfo.Elements
    rw [if_pos h0]
  · unfold GGUFTensorInfo.Elements
    rw [if_neg (by omega)]
    rw [← hlen, List.take_length]
    have h1 : (1 : Nat) = 1 % M64 := by decide
    rw [h1, foldl_mul64_eq ti.dimensions 1, Nat.one_mul,
      Nat.mod_eq_of_lt hlt]
  · have hts : tr.typeSize < M64 := ggmlTrait_typeSize_lt ti.type tr htr
    obtain ⟨bs, ts⟩ := tr
    dsimp only at hbs hts
    subst hbs
    unfold GGUFTensorInfo.Bytes
    rw [hnd, hdims, htr]
    have hsub1 : sub1u64 1 = 0 := by decide
    simp [bytesSumLoop, bytesNbTail, hsub1, mul64, add64,
      Nat.mod_eq_of_lt hts]

theorem C7_elements_product_and_dense_bytes_witness :
    (⟨"t".data, 2, [3, 4], ggmlTypeF32, 0, 0⟩ : GGUFTensorInfo).Elements =
        ([3, 4] : List Nat).prod ∧
    (⟨"t".data, 1, [1], ggmlTypeF32, 0, 0⟩ : GGUFTensorInfo).Bytes =
        some 4 :=
  ⟨(C7_elements_product_and_dense_bytes
      ⟨"t".data, 2, [3, 4], ggmlTypeF32, 0, 0⟩).2.1 (by decide) (by decide)
      (by decide),
   (C7_elements_product_and_dense_bytes
      ⟨"t".data, 1, [1], ggmlTypeF32, 0, 0⟩).2.2 ⟨1, 4⟩ (by decide)
      (by decide) (by decide) (by decide)⟩

/-- Inversion of the decode tail: a successful `finishGGUF` pins down the
alignment, the padding formula and the tensor-data start offset. -/
theorem finishGGUF_ok (s magic version tc kc : Nat)
    (kvs : List GGUFMetadataKV) (tis : List GGUFTensorInfo) (pds : Nat)
    (gf : GGUFFile) (h : finishGGUF s magic version tc kc kvs tis pds = .ok gf) :
    ∃ ag, ggufAlignment kvs = .ok ag ∧ ag ≠ 0 ∧
      gf.header.metadataKV = kvs ∧
      gf.padding = ag - pds % ag ∧
      gf.tensorDataStartOffset = pds + gf.padding := by
  unfold finishGGUF at h
  cases halign : ggufAlignment kvs with
  | error e =>
    rw [halign] at h
    exact Except.noConfusion h
  | ok ag =>
    rw [halign] at h
    dsimp only at h
    by_cases hag : ag = 0
    · rw [if_pos hag] at h
      exact Except.noConfusion h
    · rw [if_neg hag] at h
      cases h
      exact ⟨ag, rfl, hag, rfl, rfl, rfl⟩

/-- Inversion of `parseGGUFRest`: success factors through `finishGGUF`. -/
theorem parseGGUFRest_ok (fuel s : Nat) (o : GGUFReadOptions) (magic : Nat)
    (bo : ByteOrder) (s0 : RS) (gf : GGUFFile)
    (h : parseGGUFRest fuel s o magic bo s0 = .ok gf) :
    ∃ version tc kc kvs tis pds,
      finishGGUF s magic version tc kc kvs tis pds = .ok gf := by
  unfold parseGGUFRest at h
  cases h1 : readU32 bo s0 "version" with
  | error e => rw [h1] at h; exact Except.noConfusion h
  | ok p =>
    obtain ⟨version, s1⟩ := p
    rw [h1] at h
    dsimp only at h
    cases h2 : readLen ⟨version, o, bo⟩ s1 "tensor count" with
    | error e => rw [h2] at h; exact Except.noConfusion h
    | ok p =>
      obtain ⟨tc, s2⟩ := p
      rw [h2] at h
      dsimp only at h
      cases h3 : readLen ⟨version, o, bo⟩ s2 "metadata kv count" with
      | error e => rw [h3] at h; exact Except.noConfusion h
      | ok p =>
        obtain ⟨kc, s3⟩ := p
        rw [h3] at h
        dsimp only at h
        cases h4 : readMetadataKVs fuel ⟨version, o, bo⟩ kc s3 with
        | error e => rw [h4] at h; exact Except.noConfusion h
        | ok p =>
          obtain ⟨kvs, s4⟩ := p
          rw [h4] at h
          dsimp only at h
          cases h5 : readTensorInfos ⟨version, o, bo⟩ tc s4 with
          | error e => rw [h5] at h; exact Except.noConfusion h
          | ok p =>
            obtain ⟨tis, s5⟩ := p
            rw [h5] at h
            dsimp only at h
            exact ⟨version, tc, kc, kvs, tis, s5.pos, h⟩

/-- Inversion of `parseGGUFFile`: success factors through `parseGGUFRest`. -/
theorem parseGGUFFile_ok (fuel s : Nat) (data : List Nat)
    (o : GGUFReadOptions) (gf : GGUFFile)
    (h : parseGGUFFile fuel s data o = .ok gf) :
    ∃ magic bo s1, parseGGUFRest fuel s o magic bo s1 = .ok gf := by
  unfold parseGGUFFile at h
  cases h1 : readU32 .le ⟨data, 0⟩ "magic" with
  | error e => rw [h1] at h; exact Except.noConfusion h
  | ok p =>
    obtain ⟨m, s1⟩ := p
    rw [h1] at h
    dsimp only at h
    by_cases hleg : m = ggufMagicGGML ∨ m = ggufMagicGGMF ∨ m = ggufMagicGGJT
    · rw [if_pos hleg] at h
      exact Except.noConfusion h
    · rw [if_neg hleg] at h
      by_cases hle : m = ggufMagicGGUFLe
      · rw [if_pos hle] at h
        exact ⟨m, .le, s1, h⟩
      · rw [if_neg hle] at h
        by_cases hbe : m = ggufMagicGGUFBe
        · rw [if_pos hbe] at h
          exact ⟨m, .be, s1, h⟩
        · rw [if_neg hbe] at h
          exact Except.noConfusion h

/-- C1 amended: for every successful decode, with `A` the alignment the
decoder computed from the decoded metadata (success forces `A > 0`) and `P`
the padding-start offset, the tensor-data start offset `S = P + Padding`
satisfies `S ≥ P`, `S mod A = 0` and `0 < S − P ≤ A`; in particular when
`P` is already a multiple of `A` the padding is a full `A`, so
`S = P + A`. -/
theorem C1_padding_invariant_amended (fuel s : Nat) (data : List Nat)
    (o : GGUFReadOptions) (gf : GGUFFile)
    (h : parseGGUFFile fuel s data o = .ok gf) :
    ∃ ag pds, ggufAlignment gf.header.metadataKV = .ok ag ∧ 0 < ag ∧
      gf.padding = ag - pds % ag ∧
      gf.tensorDataStartOffset = pds + gf.padding ∧
      pds ≤ gf.tensorDataStartOffset ∧
      gf.tensorDataStartOffset % ag = 0 ∧
      0 < gf.tensorDataStartOffset - pds ∧
      gf.tensorDataStartOffset - pds ≤ ag ∧
      (pds % ag = 0 → gf.tensorDataStartOffset = pds + ag) := by
  obtain ⟨magic, bo, s1, hrest⟩ := parseGGUFFile_ok fuel s data o gf h
  obtain ⟨version, tc, kc, kvs, tis, pds, hfin⟩ :=
    parseGGUFRest_ok fuel s o magic bo s1 gf hrest
  obtain ⟨ag, halign, hag, hkvs, hpad, htdso⟩ :=
    finishGGUF_ok s magic version tc kc kvs tis pds gf hfin
  have hagpos : 0 < ag := Nat.pos_of_ne_zero hag
  have hr : pds % ag < ag := Nat.mod_lt _ hagpos
  have hdm : ag * (pds / ag) + pds % ag = pds := Nat.div_add_mod pds ag
  have hS : pds + (ag - pds % ag) = ag * (pds / ag + 1) := by
    rw [Nat.mul_succ]
    omega
  refine ⟨ag, pds, hkvs ▸ halign, hagpos, hpad, htdso, ?_, ?_, ?_, ?_, ?_⟩
  · omega
  · rw [htdso, hpad, hS, Nat.mul_mod_right]
  · omega
  · omega
  · intro h0
    omega

theorem C1_padding_invariant_amended_witness :
    ∃ gf, parseGGUFFile 4 120 alignedFileBytes ⟨false⟩ = .ok gf ∧
      ∃ ag pds, ggufAlignment gf.header.metadataKV = .ok ag ∧ 0 < ag ∧
        gf.padding = ag - pds % ag ∧
        gf.tensorDataStartOffset = pds + gf.padding ∧
        pds ≤ gf.tensorDataStartOffset ∧
        gf.tensorDataStartOffset % ag = 0 ∧
        0 < gf.tensorDataStartOffset - pds ∧
        gf.tensorDataStartOffset - pds ≤ ag ∧
        (pds % ag = 0 → gf.tensorDataStartOffset = pds + ag) := by
  have hex : ∃ gf, parseGGUFFile 4 120 alignedFileBytes ⟨false⟩ = .ok gf :=
    ⟨_, rfl⟩
  obtain ⟨gf, hgf⟩ := hex
  exact ⟨gf, hgf,
    C1_padding_invariant_amended 4 120 alignedFileBytes ⟨false⟩ gf hgf⟩

/-! State-advance lemmas for the skip-mode equivalence (C4). -/

theorem readBytes_state (s : RS) (n : Nat) (f : String) (bs : List Nat)
    (s' : RS) (h : s.readBytes n f = .ok (bs, s')) :
    s' = ⟨s.data, s.pos + n⟩ := by
  unfold RS.readBytes at h
  split at h
  · cases h; rfl
  · exact Except.noConfusion h

theorem readU8_state (s : RS) (f : String) (v : Nat) (s' : RS)
    (h : readU8 s f = .ok (v, s')) : s' = ⟨s.data, s.pos + 1⟩ := by
  unfold readU8 at h
  cases hb : s.readBytes 1 f with
  | error e => rw [hb] at h; exact Except.noConfusion h
  | ok p =>
    obtain ⟨bs, s2⟩ := p
    rw [hb] at h
    dsimp only at h
    cases h
    exact readBytes_state _ _ _ _ _ hb

theorem readU16_state (bo : ByteOrder) (s : RS) (f : String) (v : Nat)
    (s' : RS) (h : readU16 bo s f = .ok (v, s')) :
    s' = ⟨s.data, s.pos + 2⟩ := by
  unfold readU16 at h
  cases hb : s.readBytes 2 f with
  | error e => rw [hb] at h; exact Except.noConfusion h
  | ok p =>
    obtain ⟨bs, s2⟩ := p
    rw [hb] at h
    dsimp only at h
    cases h
    exact readBytes_state _ _ _ _ _ hb

theorem readU32_state (bo : ByteOrder) (s : RS) (f : String) (v : Nat)
    (s' : RS) (h : readU32 bo s f = .ok (v, s')) :
    s' = ⟨s.data, s.pos + 4⟩ := by
  unfold readU32 at h
  cases hb : s.readBytes 4 f with
  | error e => rw [hb] at h; exact Except.noConfusion h
  | ok p =>
    obtain ⟨bs, s2⟩ := p
    rw [hb] at h
    dsimp only at h
    cases h
    exact readBytes_state _ _ _ _ _ hb

theorem readU64_state (bo : ByteOrder) (s : RS) (f : String) (v : Nat)
    (s' : RS) (h : readU64 bo s f = .ok (v, s')) :
    s' = ⟨s.data, s.pos + 8⟩ := by
  unfold readU64 at h
  cases hb : s.readBytes 8 f with
  | error e => rw [hb] at h; exact Except.noConfusion h
  | ok p =>
    obtain ⟨bs, s2⟩ := p
    rw [hb] at h
    dsimp only at h
    cases h
    exact readBytes_state _ _ _ _ _ hb

/-- A materialized string read and a string skip agree on the final
cursor: both read the same version-conditional length and move past the
same number of bytes. -/
theorem readString_skip (rd : GGUFReader) (s : RS) (v : GoStr) (s' : RS)
    (h : readString rd s = .ok (v, s')) :
    skipReadingString rd s = .ok s' := by
  unfold readString at h
  unfold skipReadingString
  cases h1 : readLen rd s "string length" with
  | error e => rw [h1] at h; exact Except.noConfusion h
  | ok p =>
    obtain ⟨l, s1⟩ := p
    rw [h1] at h
    dsimp only at h
    cases h2 : s1.readBytes l "string" with
    | error e => rw [h2] at h; exact Except.noConfusion h
    | ok p =>
      obtain ⟨bs, s2⟩ := p
      rw [h2] at h
      dsimp only at h
      cases h
      have hst := readBytes_state _ _ _ _ _ h2
      rw [hst]
      rfl

/-- A successful scalar `readValue` of a fixed-width element type advances
the cursor by exactly that width and leaves the data unchanged. -/
theorem readValue_fixed_state (fuel : Nat) (rd : GGUFReader) (t w : Nat)
    (s : RS) (val : GGUFMetadataValue) (s' : RS)
    (hw : fixedSkipWidth t = some w)
    (h : readValue fuel rd t s = .ok (val, s')) :
    s' = ⟨s.data, s.pos + w⟩ := by
  cases fuel with
  | zero => exact Except.noConfusion h
  | succ fuel =>
    unfold fixedSkipWidth at hw
    split at hw
    all_goals first
      | exact Option.noConfusion hw
      | (cases hw
         unfold readValue at h
         rw [if_neg (by decide)] at h
         dsimp only at h
         split at h
         · exact Except.noConfusion h
         · rename_i heq
           cases h
           first
             | exact readU8_state _ _ _ _ heq
             | exact readU16_state _ _ _ _ _ heq
             | exact readU32_state _ _ _ _ _ heq
             | exact readU64_state _ _ _ _ _ heq)
/-- The materializing loop over a fixed-width element type advances the
cursor by exactly `count × width`. -/
theorem readItemsCore_fixed_state
    (readElem : Nat → RS → Except GGUFErr (GGUFMetadataValue × RS))
    (t w : Nat)
    (hre : ∀ s v s', readElem t s = .ok (v, s') → s' = ⟨s.data, s.pos + w⟩) :
    ∀ (n : Nat) (s : RS) (arr : List GGUFMetadataValue) (s' : RS),
      readItemsCore readElem t n s = .ok (arr, s') →
      s' = ⟨s.data, s.pos + n * w⟩ := by
  intro n
  induction n with
  | zero =>
    intro s arr s' h
    unfold readItemsCore at h
    cases h
    obtain ⟨d, p⟩ := s
    simp
  | succ n ih =>
    intro s arr s' h
    unfold readItemsCore at h
    cases h1 : readElem t s with
    | error e => rw [h1] at h; exact Except.noConfusion h
    | ok p =>
      obtain ⟨v, s1⟩ := p
      rw [h1] at h
      dsimp only at h
      cases h2 : readItemsCore readElem t n s1 with
      | error e => rw [h2] at h; exact Except.noConfusion h
      | ok p =>
        obtain ⟨vs, s2⟩ := p
        rw [h2] at h
        dsimp only at h
        cases h
        have e1 := hre s v s1 h1
        have e2 := ih s1 vs _ h2
        rw [e2, e1]
        dsimp only
        refine congrArg (RS.mk s.data) ?_
        ring

/-- A successful string-typed `readValue` and a string skip agree on the
final cursor. -/
theorem readValue_string_skip (fuel : Nat) (rd : GGUFReader) (s : RS)
    (v : GGUFMetadataValue) (s' : RS)
    (h : readValue fuel rd mvtString s = .ok (v, s')) :
    skipReadingString rd s = .ok s' := by
  cases fuel with
  | zero => exact Except.noConfusion h
  | succ fuel =>
    unfold readValue at h
    rw [if_neg (by decide)] at h
    dsimp only [mvtString] at h
    split at h
    · exact Except.noConfusion h
    · rename_i heq
      cases h
      exact readString_skip rd s _ _ heq

/-- The materializing loop over string-typed elements matches the
string-by-string skip loop. -/
theorem readItemsCore_string_skip (rd : GGUFReader)
    (readElem : Nat → RS → Except GGUFErr (GGUFMetadataValue × RS))
    (hre : ∀ s v s', readElem mvtString s = .ok (v, s') →
      skipReadingString rd s = .ok s') :
    ∀ (n : Nat) (s : RS) (arr : List GGUFMetadataValue) (s' : RS),
      readItemsCore readElem mvtString n s = .ok (arr, s') →
      skipStrings rd n s = .ok s' := by
  intro n
  induction n with
  | zero =>
    intro s arr s' h
    unfold readItemsCore at h
    cases h
    rfl
  | succ n ih =>
    intro s arr s' h
    unfold readItemsCore at h
    cases h1 : readElem mvtString s with
    | error e => rw [h1] at h; exact Except.noConfusion h
    | ok p =>
      obtain ⟨v, s1⟩ := p
      rw [h1] at h
      dsimp only at h
      cases h2 : readItemsCore readElem mvtString n s1 with
      | error e => rw [h2] at h; exact Except.noConfusion h
      | ok p =>
        obtain ⟨vs, s2⟩ := p
        rw [h2] at h
        dsimp only at h
        cases h
        unfold skipStrings
        rw [hre s v s1 h1]
        exact ih s1 vs _ h2

/-- Every recognized non-array, non-string element type has a fixed skip
width. -/
theorem fixedSkipWidth_total (t : Nat) (ht : t < mvtCount)
    (hs : t ≠ mvtString) (ha : t ≠ mvtArray) :
    ∃ w, fixedSkipWidth t = some w := by
  unfold mvtCount at ht
  unfold mvtString at hs
  unfold mvtArray at ha
  interval_cases t <;> first
    | exact ⟨1, rfl⟩
    | exact ⟨2, rfl⟩
    | exact ⟨4, rfl⟩
    | exact ⟨8, rfl⟩
    | omega

/-- `skipStrings` ignores the decode options. -/
theorem skipStrings_opts (v : Nat) (bo : ByteOrder)
    (o1 o2 : GGUFReadOptions) :
    ∀ (n : Nat) (s : RS),
      skipStrings ⟨v, o1, bo⟩ n s = skipStrings ⟨v, o2, bo⟩ n s := by
  intro n
  induction n with
  | zero => intro s; rfl
  | succ n ih =>
    intro s
    unfold skipStrings
    cases hr : skipReadingString ⟨v, o1, bo⟩ s with
    | error e =>
      have hr2 : skipReadingString ⟨v, o2, bo⟩ s = .error e := hr
      rw [hr2]
    | ok s1 =>
      have hr2 : skipReadingString ⟨v, o2, bo⟩ s = .ok s1 := hr
      rw [hr2]
      exact ih s1

/-- C4 amended: for every recognized NON-array element type, a successful
materializing array decode and the skip-large-metadata decode produce the
same `Type`, `Len`, `StartOffset` and `Size` (the skip result holding no
elements) and leave the cursor at the same position. -/
theorem C4_skip_mode_equivalence (fuel ver : Nat) (bo : ByteOrder) (s : RS)
    (av : GGUFMetadataKVArrayValue) (s' : RS)
    (h : readArray fuel ⟨ver, ⟨false⟩, bo⟩ s = .ok (av, s'))
    (ht : av.type < mvtCount) (hta : av.type ≠ mvtArray) :
    readArray fuel ⟨ver, ⟨true⟩, bo⟩ s =
      .ok (⟨av.type, av.len, [], av.startOffset, av.size⟩, s') := by
  cases fuel with
  | zero => exact Except.noConfusion h
  | succ fuel =>
    unfold readArray at h ⊢
    unfold readArrayCore at h ⊢
    dsimp only at h ⊢
    cases h1 : readU32 bo s "array item type" with
    | error e => rw [h1] at h; exact Except.noConfusion h
    | ok p =>
      obtain ⟨t, s1⟩ := p
      rw [h1] at h
      dsimp only at h ⊢
      cases h2 : readLen ⟨ver, ⟨false⟩, bo⟩ s1 "array length" with
      | error e => rw [h2] at h; exact Except.noConfusion h
      | ok p =>
        obtain ⟨len, s2⟩ := p
        have h2' : readLen ⟨ver, ⟨true⟩, bo⟩ s1 "array length" =
            .ok (len, s2) := h2
        rw [h2] at h
        rw [h2']
        dsimp only at h ⊢
        rw [if_pos (by decide)] at h
        rw [if_neg (by decide)]
        cases h3 : readItemsCore
            (fun vt' s'' => readValue fuel ⟨ver, ⟨false⟩, bo⟩ vt' s'')
            t len s2 with
        | error e => rw [h3] at h; exact Except.noConfusion h
        | ok p =>
          obtain ⟨arr, s3⟩ := p
          rw [h3] at h
          dsimp only at h
          cases h
          dsimp only at ht hta ⊢
          by_cases hstr : t = mvtString
          · subst hstr
            have hskip : skipStrings ⟨ver, ⟨false⟩, bo⟩ len s2 = .ok s' :=
              readItemsCore_string_skip ⟨ver, ⟨false⟩, bo⟩ _
                (fun sx vx sx' hv => readValue_string_skip fuel _ sx vx sx' hv)
                len s2 arr s' h3
            have hskip' : skipStrings ⟨ver, ⟨true⟩, bo⟩ len s2 = .ok s' := by
              rw [skipStrings_opts ver bo ⟨true⟩ ⟨false⟩ len s2]
              exact hskip
            rw [show fixedSkipWidth mvtString = none from rfl]
            dsimp only
            rw [if_pos rfl, hskip']
          · obtain ⟨w, hw⟩ := fixedSkipWidth_total t ht hstr hta
            have hfin : s' = ⟨s2.data, s2.pos + len * w⟩ :=
              readItemsCore_fixed_state _ t w
                (fun sx vx sx' hv =>
                  readValue_fixed_state fuel ⟨ver, ⟨false⟩, bo⟩ t w sx vx sx' hw hv)
                len s2 arr s' h3
            rw [hw]
            dsimp only
            rw [hfin]
            rfl

theorem C4_skip_mode_equivalence_witness :
    readArray 2 ⟨3, ⟨false⟩, .le⟩ ⟨uint16ArrayBytes, 0⟩ =
      .ok (⟨2, 2, [.vUint16 5, .vUint16 6], 0, 4⟩, ⟨uint16ArrayBytes, 16⟩) ∧
    (2 : Nat) < mvtCount ∧ (2 : Nat) ≠ mvtArray ∧
    readArray 2 ⟨3, ⟨true⟩, .le⟩ ⟨uint16ArrayBytes, 0⟩ =
      .ok (⟨2, 2, [], 0, 4⟩, ⟨uint16ArrayBytes, 16⟩) :=
  ⟨rfl, by decide, by decide,
    C4_skip_mode_equivalence 2 3 .le ⟨uint16ArrayBytes, 0⟩
      ⟨2, 2, [.vUint16 5, .vUint16 6], 0, 4⟩ ⟨uint16ArrayBytes, 16⟩
      rfl (by decide) (by decide)⟩

/-! Regrouping losslessness (C6).  The embedded tree sums run in wrapped
`uint64` arithmetic; the proof factors them through plain natural-number
sums over the tree (`pItemVal`/`pListVal`, parameterized by the per-tensor
valuation), shows one tensor insertion adds exactly its valuation, and
transfers back through the modulus. -/

mutual

/-- Plain (unwrapped) valuation of one tree node. -/
def pItemVal (f : GGUFTensorInfo → Nat) : GGUFLayerItem → Nat
  | .leaf ti => f ti
  | .named _ items => pListVal f items

/-- Plain (unwrapped) valuation of a node list. -/
def pListVal (f : GGUFTensorInfo → Nat) : List GGUFLayerItem → Nat
  | [] => 0
  | it :: rest => pItemVal f it + pListVal f rest

end

theorem pListVal_append (f : GGUFTensorInfo → Nat) :
    ∀ l1 l2 : List GGUFLayerItem,
      pListVal f (l1 ++ l2) = pListVal f l1 + pListVal f l2 := by
  intro l1
  induction l1 with
  | nil => intro l2; simp [pListVal]
  | cons it rest ih =>
    intro l2
    rw [List.cons_append]
    simp only [pListVal]
    rw [ih l2]
    ring

theorem hasNamed_append (l1 l2 : List GGUFLayerItem) (n : GoStr) :
    hasNamed (l1 ++ l2) n = (hasNamed l1 n || hasNamed l2 n) := by
  unfold hasNamed
  exact List.any_append

theorem hasNamed_ensureNamed (l : List GGUFLayerItem) (n : GoStr) :
    hasNamed (ensureNamed l n) n = true := by
  unfold ensureNamed
  by_cases h : hasNamed l n
  · rw [if_pos h]
    exact h
  · rw [if_neg h, hasNamed_append]
    have : hasNamed [GGUFLayerItem.named n []] n = true := by
      simp [hasNamed]
    rw [this]
    simp

theorem pListVal_ensureNamed (f : GGUFTensorInfo → Nat)
    (l : List GGUFLayerItem) (n : GoStr) :
    pListVal f (ensureNamed l n) = pListVal f l := by
  unfold ensureNamed
  by_cases h : hasNamed l n
  · rw [if_pos h]
  · rw [if_neg h, pListVal_append]
    simp [pListVal, pItemVal]

theorem pListVal_modifyNamed (f : GGUFTensorInfo → Nat)
    (fn : List GGUFLayerItem → List GGUFLayerItem) (c : Nat)
    (hmod : ∀ items, pListVal f (fn items) = pListVal f items + c) :
    ∀ (l : List GGUFLayerItem) (n : GoStr), hasNamed l n = true →
      pListVal f (modifyNamed l n fn) = pListVal f l + c := by
  intro l
  induction l with
  | nil => intro n hhas; simp [hasNamed] at hhas
  | cons it rest ih =>
    intro n hhas
    cases it with
    | leaf ti =>
      have hhas' : hasNamed rest n = true := by
        simpa [hasNamed] using hhas
      unfold modifyNamed pListVal
      rw [ih n hhas']
      ring
    | named m items =>
      unfold modifyNamed
      by_cases hm : m = n
      · rw [if_pos hm]
        unfold pListVal pItemVal
        rw [hmod items]
        ring
      · rw [if_neg hm]
        have hhas' : hasNamed rest n = true := by
          have hb : (m == n) = false := by
            exact beq_eq_false_iff_ne.mpr hm
          simpa [hasNamed, hb] using hhas
        unfold pListVal pItemVal
        rw [ih n hhas']
        ring

theorem pListVal_appendIntoNamed (f : GGUFTensorInfo → Nat)
    (l : List GGUFLayerItem) (n : GoStr) (x : GGUFLayerItem)
    (hhas : hasNamed l n = true) :
    pListVal f (appendIntoNamed l n x) = pListVal f l + pItemVal f x := by
  unfold appendIntoNamed
  refine pListVal_modifyNamed f _ (pItemVal f x) ?_ l n hhas
  intro items
  rw [pListVal_append]
  simp [pListVal]

theorem pListVal_layersStep (f : GGUFTensorInfo → Nat)
    (ret : List GGUFLayerItem) (ti : GGUFTensorInfo) :
    pListVal f (layersStep ret ti) = pListVal f ret + f ti := by
  unfold layersStep
  dsimp only
  split_ifs with h1 h2 h3
  · rw [pListVal_appendIntoNamed f _ _ _
      (hasNamed_ensureNamed ret _), pListVal_ensureNamed]
    rfl
  · rw [pListVal_appendIntoNamed f _ _ _
      (hasNamed_ensureNamed ret _), pListVal_ensureNamed]
    rfl
  · rw [pListVal_modifyNamed f _ (f ti) ?_ _ _ (hasNamed_ensureNamed ret _),
      pListVal_ensureNamed]
    intro items
    rw [pListVal_appendIntoNamed f _ _ _ (hasNamed_ensureNamed items _),
      pListVal_ensureNamed]
    rfl
  · rw [pListVal_append]
    simp [pListVal, pItemVal]

theorem pListVal_layersOf (f : GGUFTensorInfo → Nat) :
    ∀ (tis : List GGUFTensorInfo) (ret : List GGUFLayerItem),
      pListVal f (List.foldl layersStep ret tis) =
        pListVal f ret + (tis.map f).sum := by
  intro tis
  induction tis with
  | nil => intro ret; simp
  | cons ti rest ih =>
    intro ret
    rw [List.foldl_cons, ih (layersStep ret ti), pListVal_layersStep]
    simp [List.map_cons, List.sum_cons]
    ring

/-- Per-tensor valuations used to factor the wrapped sums. -/
def elemsVal (ti : GGUFTensorInfo) : Nat := ti.Elements

/-- Constant-1 valuation (tensor count). -/
def oneVal (_ : GGUFTensorInfo) : Nat := 1

/-- Byte count of a tensor, defaulting the panic case to 0. -/
def bytesVal (ti : GGUFTensorInfo) : Nat := (ti.Bytes).getD 0

/-- Panic indicator of a tensor byte count (1 when the trait is missing). -/
def bytesBad (ti : GGUFTensorInfo) : Nat :=
  match ti.Bytes with
  | none => 1
  | some _ => 0

theorem M64_pos : 0 < M64 := by decide

theorem foldl_mul64_lt :
    ∀ (l : List Nat) (a : Nat), a < M64 → List.foldl mul64 a l < M64 := by
  intro l
  induction l with
  | nil => intro a h; exact h
  | cons x xs ih =>
    intro a h
    rw [List.foldl_cons]
    exact ih (mul64 a x) (Nat.mod_lt _ M64_pos)

theorem elements_lt (ti : GGUFTensorInfo) : ti.Elements < M64 := by
  unfold GGUFTensorInfo.Elements
  split
  · exact M64_pos
  · exact foldl_mul64_lt _ 1 (by decide)

theorem foldl_add64_lt (g : Nat → Nat) :
    ∀ (l : List Nat) (acc : Nat), acc < M64 →
      List.foldl (fun a i => add64 a (g i)) acc l < M64 := by
  intro l
  induction l with
  | nil => intro acc h; exact h
  | cons x xs ih =>
    intro acc h
    rw [List.foldl_cons]
    exact ih (add64 acc (g x)) (Nat.mod_lt _ M64_pos)

theorem bytesSumLoop_lt (dims nb : List Nat) (lo hi acc : Nat)
    (h : acc < M64) : bytesSumLoop dims nb lo hi acc < M64 := by
  unfold bytesSumLoop
  exact foldl_add64_lt _ _ acc h

theorem bytes_lt (ti : GGUFTensorInfo) (b : Nat) (h : ti.Bytes = some b) :
    b < M64 := by
  unfold GGUFTensorInfo.Bytes at h
  split at h
  · cases h; exact M64_pos
  · cases htr : ggmlTrait ti.type with
    | none => rw [htr] at h; exact Option.noConfusion h
    | some tt =>
      rw [htr] at h
      dsimp only at h
      split at h
      · cases h
        exact bytesSumLoop_lt _ _ _ _ _ (ggmlTrait_typeSize_lt ti.type tt htr)
      · cases h
        exact bytesSumLoop_lt _ _ _ _ _
          (Nat.lt_of_le_of_lt (Nat.div_le_self _ _) (Nat.mod_lt _ M64_pos))

mutual

theorem layerItemElements_eq :
    ∀ it : GGUFLayerItem,
      layerItemElements it = pItemVal elemsVal it % M64
  | .leaf ti => by
    show ti.Elements = elemsVal ti % M64
    rw [elemsVal, Nat.mod_eq_of_lt (elements_lt ti)]
  | .named n items => by
    show layerElementsAux items 0 = pListVal elemsVal items % M64
    rw [layerElementsAux_eq items 0 (by decide)]
    rw [Nat.zero_add]

theorem layerElementsAux_eq :
    ∀ (l : List GGUFLayerItem) (acc : Nat), acc < M64 →
      layerElementsAux l acc = (acc + pListVal elemsVal l) % M64
  | [], acc, h => by
    show acc = (acc + pListVal elemsVal []) % M64
    rw [show pListVal elemsVal [] = 0 from rfl, Nat.add_zero,
      Nat.mod_eq_of_lt h]
  | it :: rest, acc, h => by
    show layerElementsAux rest (add64 acc (layerItemElements it)) =
      (acc + pListVal elemsVal (it :: rest)) % M64
    rw [layerElementsAux_eq rest (add64 acc (layerItemElements it))
      (Nat.mod_lt _ M64_pos)]
    rw [layerItemElements_eq it]
    rw [show pListVal elemsVal (it :: rest) =
      pItemVal elemsVal it + pListVal elemsVal rest from rfl]
    unfold add64 M64
    omega

end

mutual

theorem layerItemCount_eq :
    ∀ it : GGUFLayerItem, layerItemCount it = pItemVal oneVal it % M64
  | .leaf _ => by
    show 1 = 1 % M64
    rw [Nat.mod_eq_of_lt (by decide)]
  | .named n items => by
    show layerCountAux items 0 = pListVal oneVal items % M64
    rw [layerCountAux_eq items 0 (by decide)]
    rw [Nat.zero_add]

theorem layerCountAux_eq :
    ∀ (l : List GGUFLayerItem) (acc : Nat), acc < M64 →
      layerCountAux l acc = (acc + pListVal oneVal l) % M64
  | [], acc, h => by
    show acc = (acc + pListVal oneVal []) % M64
    rw [show pListVal oneVal [] = 0 from rfl, Nat.add_zero,
      Nat.mod_eq_of_lt h]
  | it :: rest, acc, h => by
    show layerCountAux rest (add64 acc (layerItemCount it)) =
      (acc + pListVal oneVal (it :: rest)) % M64
    rw [layerCountAux_eq rest (add64 acc (layerItemCount it))
      (Nat.mod_lt _ M64_pos)]
    rw [layerItemCount_eq it]
    rw [show pListVal oneVal (it :: rest) =
      pItemVal oneVal it + pListVal oneVal rest from rfl]
    unfold add64 M64
    omega

end

mutual

theorem layerItemBytes_eq :
    ∀ it : GGUFLayerItem,
      layerItemBytes it =
        if pItemVal bytesBad it = 0 then some (pItemVal bytesVal it % M64)
        else none
  | .leaf ti => by
    show ti.Bytes =
      if bytesBad ti = 0 then some (bytesVal ti % M64) else none
    cases hb : ti.Bytes with
    | none => simp [bytesBad, hb]
    | some b =>
      simp [bytesBad, bytesVal, hb, Nat.mod_eq_of_lt (bytes_lt ti b hb)]
  | .named n items => by
    show layerBytesAux items 0 =
      if pListVal bytesBad items = 0 then some (pListVal bytesVal items % M64)
      else none
    rw [layerBytesAux_eq items 0 (by decide)]
    rw [Nat.zero_add]

theorem layerBytesAux_eq :
    ∀ (l : List GGUFLayerItem) (acc : Nat), acc < M64 →
      layerBytesAux l acc =
        if pListVal bytesBad l = 0 then
          some ((acc + pListVal bytesVal l) % M64)
        else none
  | [], acc, h => by
    show some acc = _
    rw [show pListVal bytesBad ([] : List GGUFLayerItem) = 0 from rfl,
      show pListVal bytesVal ([] : List GGUFLayerItem) = 0 from rfl,
      if_pos rfl, Nat.add_zero, Nat.mod_eq_of_lt h]
  | it :: rest, acc, h => by
    show (match layerItemBytes it with
      | none => none
      | some b => layerBytesAux rest (add64 acc b)) = _
    rw [layerItemBytes_eq it]
    rw [show pListVal bytesBad (it :: rest) =
      pItemVal bytesBad it + pListVal bytesBad rest from rfl]
    rw [show pListVal bytesVal (it :: rest) =
      pItemVal bytesVal it + pListVal bytesVal rest from rfl]
    by_cases hbad : pItemVal bytesBad it = 0
    · rw [if_pos hbad]
      dsimp only
      rw [layerBytesAux_eq rest (add64 acc (pItemVal bytesVal it % M64))
        (Nat.mod_lt _ M64_pos)]
      by_cases hbr : pListVal bytesBad rest = 0
      · rw [if_pos hbr, if_pos (by omega)]
        congr 1
        unfold add64 M64
        omega
      · rw [if_neg hbr, if_neg (by omega)]
    · rw [if_neg hbad]
      dsimp only
      rw [if_neg (by omega)]

end

theorem tensorInfosElements_aux :
    ∀ (tis : List GGUFTensorInfo) (acc : Nat), acc < M64 →
      List.foldl (fun a ti => add64 a ti.Elements) acc tis =
        (acc + (tis.map elemsVal).sum) % M64 := by
  intro tis
  induction tis with
  | nil => intro acc h; simp [Nat.mod_eq_of_lt h]
  | cons ti rest ih =>
    intro acc h
    rw [List.foldl_cons, ih (add64 acc ti.Elements) (Nat.mod_lt _ M64_pos)]
    rw [List.map_cons, List.sum_cons]
    show (add64 acc (elemsVal ti) + ((rest.map elemsVal).sum)) % M64 = _
    unfold add64 M64
    omega

theorem tensorInfosBytes_eq :
    ∀ (tis : List GGUFTensorInfo) (acc : Nat), acc < M64 →
      tensorInfosBytes tis acc =
        if (tis.map bytesBad).sum = 0 then
          some ((acc + (tis.map bytesVal).sum) % M64)
        else none := by
  intro tis
  induction tis with
  | nil =>
    intro acc h
    show some acc = _
    simp [Nat.mod_eq_of_lt h]
  | cons ti rest ih =>
    intro acc h
    show (match ti.Bytes with
      | none => none
      | some b => tensorInfosBytes rest (add64 acc b)) = _
    rw [List.map_cons, List.sum_cons, List.map_cons, List.sum_cons]
    cases hb : ti.Bytes with
    | none =>
      rw [if_neg (by simp [bytesBad, hb])]
    | some b =>
      have hbad : bytesBad ti = 0 := by simp [bytesBad, hb]
      have hval : bytesVal ti = b := by simp [bytesVal, hb]
      dsimp only
      rw [ih (add64 acc b) (Nat.mod_lt _ M64_pos), hbad, hval]
      by_cases hbr : (rest.map bytesBad).sum = 0
      · rw [if_pos hbr, if_pos (by omega)]
        congr 1
        unfold add64 M64
        omega
      · rw [if_neg hbr, if_neg (by omega)]

theorem sum_map_oneVal :
    ∀ tis : List GGUFTensorInfo, (tis.map oneVal).sum = tis.length := by
  intro tis
  induction tis with
  | nil => rfl
  | cons ti rest ih => simp [oneVal, ih]; omega

/-- C6: the totals Elements, Bytes and Count computed over the flat tensor
list equal the totals computed over the layer tree (with an empty ignore
set, under which `Layers` returns the tree unchanged): the regrouping
places every tensor in exactly one leaf, so the recursive branch sums
reproduce the flat sums.  (For Count the two `uint64` computations agree
whenever the list length fits `uint64`, which a Go slice guarantees.) -/
theorem C6_regrouping_lossless (gf : GGUFFile) :
    layerElements gf.layers = tensorInfosElements gf.tensorInfos ∧
    layerBytes gf.layers = tensorInfosBytes gf.tensorInfos 0 ∧
    (gf.tensorInfos.length < M64 →
      layerCount gf.layers = tensorInfosCount gf.tensorInfos) ∧
    gf.Layers [] = gf.layers := by
  have hlayers : gf.layers = List.foldl layersStep [] gf.tensorInfos := rfl
  refine ⟨?_, ?_, ?_, ?_⟩
  · show layerElementsAux gf.layers 0 = tensorInfosElements gf.tensorInfos
    rw [layerElementsAux_eq _ 0 (by decide), hlayers,
      pListVal_layersOf elemsVal gf.tensorInfos []]
    rw [show pListVal elemsVal [] = 0 from rfl]
    unfold tensorInfosElements
    rw [tensorInfosElements_aux gf.tensorInfos 0 (by decide)]
    rw [Nat.zero_add]
  · show layerBytesAux gf.layers 0 = tensorInfosBytes gf.tensorInfos 0
    rw [layerBytesAux_eq _ 0 (by decide), hlayers,
      pListVal_layersOf bytesBad gf.tensorInfos [],
      pListVal_layersOf bytesVal gf.tensorInfos []]
    rw [show pListVal bytesBad [] = 0 from rfl,
      show pListVal bytesVal [] = 0 from rfl]
    rw [tensorInfosBytes_eq gf.tensorInfos 0 (by decide)]
    simp
  · intro hlen
    show layerCountAux gf.layers 0 = tensorInfosCount gf.tensorInfos
    rw [layerCountAux_eq _ 0 (by decide), hlayers,
      pListVal_layersOf oneVal gf.tensorInfos []]
    rw [show pListVal oneVal [] = 0 from rfl]
    rw [sum_map_oneVal gf.tensorInfos]
    show (0 + (0 + gf.tensorInfos.length)) % M64 = gf.tensorInfos.length
    rw [Nat.zero_add, Nat.zero_add, Nat.mod_eq_of_lt hlen]
  · show GGUFFile.Layers gf [] = gf.layers
    unfold GGUFFile.Layers
    rw [if_neg (by simp)]

theorem C6_regrouping_lossless_witness :
    layerElements (mkGGUFFile mixedTensorList).layers =
      tensorInfosElements mixedTensorList ∧
    layerBytes (mkGGUFFile mixedTensorList).layers =
      tensorInfosBytes mixedTensorList 0 ∧
    mixedTensorList.length < M64 ∧
    layerCount (mkGGUFFile mixedTensorList).layers =
      tensorInfosCount mixedTensorList :=
  ⟨(C6_regrouping_lossless (mkGGUFFile mixedTensorList)).1,
   (C6_regrouping_lossless (mkGGUFFile mixedTensorList)).2.1,
   by decide,
   (C6_regrouping_lossless (mkGGUFFile mixedTensorList)).2.2.1 (by decide)⟩

end GGUF
